import Mathlib

/-!
Verification development for the alert-to-fix bridge
(`alert_ollama_bridge.py`).

The Python program is shallowly embedded: JSON/YAML-shaped data is the
inductive type `Json`; Python exceptions are modelled with the monad
`Py α = Except PyErr α`; functions of the source are translated one by
one, keeping their names.  The YAML (de)serialisation boundary and the
external collaborators (GitHub, the model-inference call, Slack) are
modelled structurally: `apply_manifest_changes` works on the list of
parsed documents, and the versioned store is the explicit record
`GithubState`.  Logging calls are dropped, but every sub-expression of a
log line that can raise is kept as a (discarded) monadic bind.
-/

/-- Values of the Python/JSON data universe the program manipulates.
Numbers are restricted to integers (no claim involves floats). -/
inductive Json where
  | null : Json
  | bool : Bool → Json
  | num : Int → Json
  | str : String → Json
  | arr : List Json → Json
  | obj : List (String × Json) → Json

/-- The Python exception kinds that the embedded code can raise. -/
inductive PyErr where
  | typeError : PyErr
  | attributeError : PyErr
  | keyError : PyErr
  | valueError : PyErr
  | indexError : PyErr
  | jsonDecodeError : PyErr
deriving DecidableEq, Repr

/-- Computations that may raise a Python exception. -/
abbrev Py (α : Type) : Type := Except PyErr α

mutual
/-- Structural boolean equality on `Json` (the derive handler does not
support the nested occurrence in lists). -/
def Json.beq : Json → Json → Bool
  | .null, .null => true
  | .bool a, .bool b => a == b
  | .num a, .num b => a == b
  | .str a, .str b => a == b
  | .arr xs, .arr ys => Json.beqList xs ys
  | .obj fs, .obj gs => Json.beqFields fs gs
  | _, _ => false

def Json.beqList : List Json → List Json → Bool
  | [], [] => true
  | x :: xs, y :: ys => Json.beq x y && Json.beqList xs ys
  | _, _ => false

def Json.beqFields : List (String × Json) → List (String × Json) → Bool
  | [], [] => true
  | (k, v) :: fs, (l, w) :: gs => k == l && Json.beq v w && Json.beqFields fs gs
  | _, _ => false
end

instance : BEq Json := ⟨Json.beq⟩

mutual
theorem Json.eq_of_beq : ∀ a b : Json, Json.beq a b = true → a = b
  | .null, .null, _ => rfl
  | .bool a, .bool b, h => by
      simp only [Json.beq] at h; exact congrArg Json.bool (by simpa using h)
  | .num a, .num b, h => by
      simp only [Json.beq] at h; exact congrArg Json.num (by simpa using h)
  | .str a, .str b, h => by
      simp only [Json.beq] at h; exact congrArg Json.str (by simpa using h)
  | .arr xs, .arr ys, h => by
      simp only [Json.beq] at h
      exact congrArg Json.arr (Json.eqList_of_beqList xs ys h)
  | .obj fs, .obj gs, h => by
      simp only [Json.beq] at h
      exact congrArg Json.obj (Json.eqFields_of_beqFields fs gs h)

theorem Json.eqList_of_beqList : ∀ xs ys : List Json, Json.beqList xs ys = true → xs = ys
  | [], [], _ => rfl
  | x :: xs, y :: ys, h => by
      simp only [Json.beqList, Bool.and_eq_true] at h
      rw [Json.eq_of_beq x y h.1, Json.eqList_of_beqList xs ys h.2]

theorem Json.eqFields_of_beqFields :
    ∀ fs gs : List (String × Json), Json.beqFields fs gs = true → fs = gs
  | [], [], _ => rfl
  | (k, v) :: fs, (l, w) :: gs, h => by
      simp only [Json.beqFields, Bool.and_eq_true] at h
      obtain ⟨⟨h1, h2⟩, h3⟩ := h
      rw [show k = l from by simpa using h1, Json.eq_of_beq v w h2,
        Json.eqFields_of_beqFields fs gs h3]
end

mutual
theorem Json.beq_refl : ∀ a : Json, Json.beq a a = true
  | .null => rfl
  | .bool a => by simp [Json.beq]
  | .num a => by simp [Json.beq]
  | .str a => by simp [Json.beq]
  | .arr xs => by simp only [Json.beq]; exact Json.beqList_refl xs
  | .obj fs => by simp only [Json.beq]; exact Json.beqFields_refl fs

theorem Json.beqList_refl : ∀ xs : List Json, Json.beqList xs xs = true
  | [] => rfl
  | x :: xs => by
      simp only [Json.beqList, Bool.and_eq_true]
      exact ⟨Json.beq_refl x, Json.beqList_refl xs⟩

theorem Json.beqFields_refl : ∀ fs : List (String × Json), Json.beqFields fs fs = true
  | [] => rfl
  | (k, v) :: fs => by
      simp only [Json.beqFields, Bool.and_eq_true]
      exact ⟨⟨by simp, Json.beq_refl v⟩, Json.beqFields_refl fs⟩
end

instance : DecidableEq Json := fun a b =>
  if h : Json.beq a b = true then isTrue (Json.eq_of_beq a b h)
  else isFalse (fun he => h (he ▸ Json.beq_refl a))

namespace Json

/-- First-match lookup in an object's field list (`none` on non-objects).
The JSON parser and `setKey` keep field names unique, so first-match
agrees with Python dict lookup. -/
def lookup : Json → String → Option Json
  | obj fields, k => fieldsGet fields k
  | _, _ => none
where
  fieldsGet : List (String × Json) → String → Option Json
    | [], _ => none
    | (k', v) :: rest, k => if k' = k then some v else fieldsGet rest k

/-- Replace the value of the first occurrence of a key, else append the
pair at the end: exactly Python dict assignment on insertion-ordered
dicts. -/
def setFields : List (String × Json) → String → Json → List (String × Json)
  | [], k, v => [(k, v)]
  | (k', v') :: rest, k, v =>
      if k' = k then (k, v) :: rest else (k', v') :: setFields rest k v

/-- `d[k] = v` on objects; identity on non-objects (never used there). -/
def setKey : Json → String → Json → Json
  | obj fields, k, v => obj (setFields fields k v)
  | j, _, _ => j

def isObj : Json → Bool
  | obj _ => true
  | _ => false

def isStr : Json → Bool
  | str _ => true
  | _ => false

def isArr : Json → Bool
  | arr _ => true
  | _ => false

end Json

/-- Python truthiness of the modelled values. -/
def pyTruthy : Json → Bool
  | Json.null => false
  | Json.bool b => b
  | Json.num n => n ≠ 0
  | Json.str s => s ≠ ""
  | Json.arr xs => !xs.isEmpty
  | Json.obj fs => !fs.isEmpty

/-- `d.get(k, default)`: `AttributeError` unless `d` is a dict. -/
def pyDictGet (j : Json) (k : String) (default : Json) : Py Json :=
  match j with
  | Json.obj fields => Except.ok ((Json.lookup.fieldsGet fields k).getD default)
  | _ => Except.error PyErr.attributeError

/-- `x[k]` with a string key: dict lookup (`KeyError` when absent),
`TypeError` on every other type. -/
def pySubscrStr (j : Json) (k : String) : Py Json :=
  match j with
  | Json.obj fields =>
      match Json.lookup.fieldsGet fields k with
      | some v => Except.ok v
      | none => Except.error PyErr.keyError
  | _ => Except.error PyErr.typeError

/-- `x[i]` with a non-negative integer index.  Lists index, strings index
into characters, dicts raise `KeyError` (our dicts have only string
keys), the rest raise `TypeError`. -/
def pySubscrNat (j : Json) (i : Nat) : Py Json :=
  match j with
  | Json.arr xs =>
      match xs.get? i with
      | some v => Except.ok v
      | none => Except.error PyErr.indexError
  | Json.str s =>
      match s.toList.get? i with
      | some c => Except.ok (Json.str (String.mk [c]))
      | none => Except.error PyErr.indexError
  | Json.obj _ => Except.error PyErr.keyError
  | _ => Except.error PyErr.typeError

/-- Does `hay` start with `pat`? -/
def listStarts : List Char → List Char → Bool
  | _, [] => true
  | [], _ :: _ => false
  | a :: as, b :: bs => a = b && listStarts as bs

/-- Substring test (Python `pat in hay` on strings). -/
def listContainsSub (hay pat : List Char) : Bool :=
  match hay with
  | [] => pat.isEmpty
  | _ :: rest => listStarts hay pat || listContainsSub rest pat

def strContainsSub (hay pat : String) : Bool :=
  listContainsSub hay.toList pat.toList

def strStarts (hay pat : String) : Bool :=
  listStarts hay.toList pat.toList

/-- ASCII-level `str.lower()`. -/
def strLower (s : String) : String :=
  String.mk (s.toList.map Char.toLower)

/-- ASCII-level `str.upper()`. -/
def strUpper (s : String) : String :=
  String.mk (s.toList.map Char.toUpper)

/-- Python's `\s` / `str.strip` whitespace class (space, tab, newline,
carriage return, vertical tab, form feed). -/
def isPyWs (c : Char) : Bool :=
  c = ' ' || c = '\t' || c = '\n' || c = '\r' || c = Char.ofNat 11 || c = Char.ofNat 12

/-- `str.strip()`. -/
def strStrip (s : String) : String :=
  String.mk (((s.toList.dropWhile isPyWs).reverse.dropWhile isPyWs).reverse)

/-- First `n` characters (`s[:n]`). -/
def strTakeN (s : String) (n : Nat) : String :=
  String.mk (s.toList.take n)

/-- `s.split(sep)` restricted to a single-character separator, which is
all the source uses (`split('\n')`).  The result is always non-empty. -/
def strSplitChar (s : String) (sep : Char) : List String :=
  go s.toList []
where
  go : List Char → List Char → List String
    | [], acc => [String.mk acc.reverse]
    | c :: cs, acc =>
        if c = sep then String.mk acc.reverse :: go cs [] else go cs (c :: acc)

/-- `s.replace(a, b)` restricted to single characters, as used by the
source (`replace('_', ' ')`). -/
def strReplaceChar (s : String) (a b : Char) : String :=
  String.mk (s.toList.map (fun c => if c = a then b else c))

mutual
/-- Fuel-bounded core of `str(x)`.  The fuel only bounds the recursion
depth; `pyStrOf` always supplies more fuel than the number of recursive
steps, which is bounded by the size of the value. -/
def pyStrOfF : Nat → Json → String
  | 0, _ => ""
  | _ + 1, Json.null => "None"
  | _ + 1, Json.bool true => "True"
  | _ + 1, Json.bool false => "False"
  | _ + 1, Json.num n => toString n
  | _ + 1, Json.str s => s
  | f + 1, Json.arr xs => "[" ++ pyReprListF f xs ++ "]"
  | f + 1, Json.obj fs => "\x7b" ++ pyReprFieldsF f fs ++ "\x7d"

def pyReprOneF : Nat → Json → String
  | 0, _ => ""
  | _ + 1, Json.str s => "\"" ++ s ++ "\""
  | f + 1, j => pyStrOfF f j

def pyReprListF : Nat → List Json → String
  | 0, _ => ""
  | _ + 1, [] => ""
  | f + 1, [x] => pyReprOneF f x
  | f + 1, x :: xs => pyReprOneF f x ++ ", " ++ pyReprListF f xs

def pyReprFieldsF : Nat → List (String × Json) → String
  | 0, _ => ""
  | _ + 1, [] => ""
  | f + 1, [(k, v)] => "\"" ++ k ++ "\": " ++ pyReprOneF f v
  | f + 1, (k, v) :: fs => "\"" ++ k ++ "\": " ++ pyReprOneF f v ++ ", " ++ pyReprFieldsF f fs
end

mutual
/-- Structural size of a value, used as a fuel bound. -/
def Json.jsize : Json → Nat
  | .null => 1
  | .bool _ => 1
  | .num _ => 1
  | .str _ => 1
  | .arr xs => 1 + Json.jsizeList xs
  | .obj fs => 1 + Json.jsizeFields fs

def Json.jsizeList : List Json → Nat
  | [] => 0
  | x :: xs => 1 + Json.jsize x + Json.jsizeList xs

def Json.jsizeFields : List (String × Json) → Nat
  | [] => 0
  | (_, v) :: fs => 1 + Json.jsize v + Json.jsizeFields fs
end

/-- `str(x)` for the modelled values.  Container reprs use double quotes
instead of Python's single quotes; only the presence of a colon in the
result is ever relied on by the program. -/
def pyStrOf (j : Json) : String :=
  pyStrOfF (2 * Json.jsize j + 2) j

/-- `k in x` with a string left operand: key test on dicts, membership on
lists, substring test on strings, `TypeError` otherwise. -/
def pyInStr (needle : String) (j : Json) : Py Bool :=
  match j with
  | Json.obj fields => Except.ok ((Json.lookup.fieldsGet fields needle).isSome)
  | Json.arr xs => Except.ok (xs.contains (Json.str needle))
  | Json.str s => Except.ok (strContainsSub s needle)
  | _ => Except.error PyErr.typeError

/-- `for x in j`: lists yield elements, strings characters, dicts keys;
the rest raise `TypeError`. -/
def pyIter (j : Json) : Py (List Json) :=
  match j with
  | Json.arr xs => Except.ok xs
  | Json.str s => Except.ok (s.toList.map (fun c => Json.str (String.mk [c])))
  | Json.obj fields => Except.ok (fields.map (fun kv => Json.str kv.1))
  | _ => Except.error PyErr.typeError

/-- `len(j)`. -/
def pyLen (j : Json) : Py Nat :=
  match j with
  | Json.arr xs => Except.ok xs.length
  | Json.str s => Except.ok s.toList.length
  | Json.obj fields => Except.ok fields.length
  | _ => Except.error PyErr.typeError

/-- `j.lower()`: strings only. -/
def pyLower (j : Json) : Py String :=
  match j with
  | Json.str s => Except.ok (strLower s)
  | _ => Except.error PyErr.attributeError

/-- `j.upper()`: strings only. -/
def pyUpper (j : Json) : Py String :=
  match j with
  | Json.str s => Except.ok (strUpper s)
  | _ => Except.error PyErr.attributeError

/-- `j[:n]`: slices work on strings and lists, `TypeError` otherwise. -/
def pySliceTake (j : Json) (n : Nat) : Py Json :=
  match j with
  | Json.str s => Except.ok (Json.str (strTakeN s n))
  | Json.arr xs => Except.ok (Json.arr (xs.take n))
  | _ => Except.error PyErr.typeError

/-- `j.append(v)`: lists only. -/
def pyAppend (j : Json) (v : Json) : Py Json :=
  match j with
  | Json.arr xs => Except.ok (Json.arr (xs ++ [v]))
  | _ => Except.error PyErr.attributeError

/- Characters written via code points to keep the source free of literal
braces, apostrophes and backticks. -/
def aposChar : Char := Char.ofNat 39
def lbraceChar : Char := Char.ofNat 123
def rbraceChar : Char := Char.ofNat 125
def backtickChar : Char := Char.ofNat 96

def isWordChar (c : Char) : Bool :=
  c.isAlphanum || c = '_'

/-- `re.sub(r"'([^']*)':", r'"\1":', s)` — rewrite single-quoted keys.
The fuel argument only bounds the recursion; it is always supplied as
more than the number of scanning steps, which each consume at least one
character. -/
def subQuotedKeysF : Nat → List Char → List Char
  | 0, cs => cs
  | _ + 1, [] => []
  | f + 1, c :: rest =>
      if c = aposChar then
        match List.span (fun x => x ≠ aposChar) rest with
        | (mid, _ :: after) =>
            match after with
            | ':' :: after2 => '"' :: (mid ++ '"' :: ':' :: subQuotedKeysF f after2)
            | _ => c :: subQuotedKeysF f rest
        | (_, []) => c :: subQuotedKeysF f rest
      else c :: subQuotedKeysF f rest

/-- `re.sub(r":\s*'([^']*)'", r': "\1"', s)` — rewrite single-quoted
values (note the replacement normalises the whitespace run to one
space). -/
def subQuotedValsF : Nat → List Char → List Char
  | 0, cs => cs
  | _ + 1, [] => []
  | f + 1, c :: rest =>
      if c = ':' then
        match rest.dropWhile isPyWs with
        | q :: rest3 =>
            if q = aposChar then
              match List.span (fun x => x ≠ aposChar) rest3 with
              | (mid, _ :: after) =>
                  ':' :: ' ' :: '"' :: (mid ++ '"' :: subQuotedValsF f after)
              | (_, []) => c :: subQuotedValsF f rest
            else c :: subQuotedValsF f rest
        | [] => c :: subQuotedValsF f rest
      else c :: subQuotedValsF f rest

/-- `re.sub(r'\bW\b', r, s)` for a word `w` made of word characters
(used for `True`/`False`/`None`).  `prevW` records whether the previous
character of the original string was a word character. -/
def subWordF (w r : List Char) : Nat → Bool → List Char → List Char
  | 0, _, cs => cs
  | _ + 1, _, [] => []
  | f + 1, prevW, c :: rest =>
      if !prevW && listStarts (c :: rest) w
          && (match (c :: rest).drop w.length with
              | [] => true
              | nx :: _ => !isWordChar nx) then
        r ++ subWordF w r f true ((c :: rest).drop w.length)
      else c :: subWordF w r f (isWordChar c) rest

/-- `re.sub(r',(\s*[}\]])', r'\1', s)` — drop trailing commas before a
closing bracket. -/
def subTrailingCommasF : Nat → List Char → List Char
  | 0, cs => cs
  | _ + 1, [] => []
  | f + 1, c :: rest =>
      if c = ',' then
        let ws := rest.takeWhile isPyWs
        match rest.dropWhile isPyWs with
        | b :: after =>
            if b = rbraceChar || b = ']' then ws ++ b :: subTrailingCommasF f after
            else c :: subTrailingCommasF f rest
        | [] => c :: subTrailingCommasF f rest
      else c :: subTrailingCommasF f rest

/-- `clean_json_string` of the source: strip, fix single-quoted
keys/values, canonicalise `True`/`False`/`None`, drop trailing commas. -/
def clean_json_string (s : String) : String :=
  let cs1 := (strStrip s).toList
  let cs2 := subQuotedKeysF (cs1.length + 1) cs1
  let cs3 := subQuotedValsF (cs2.length + 1) cs2
  let cs4 := subWordF "True".toList "true".toList (cs3.length + 1) false cs3
  let cs5 := subWordF "False".toList "false".toList (cs4.length + 1) false cs4
  let cs6 := subWordF "None".toList "null".toList (cs5.length + 1) false cs5
  String.mk (subTrailingCommasF (cs6.length + 1) cs6)

/- ---------------------------------------------------------------------
JSON parsing: a model of Python's `json.loads` restricted to the `Json`
universe (integer numbers, no `\uXXXX` escapes).  Inputs outside the
restriction fail with `JSONDecodeError`, which the parser under
verification treats like any other undecodable input.
--------------------------------------------------------------------- -/

def isJsonWs (c : Char) : Bool :=
  c = ' ' || c = '\t' || c = '\n' || c = '\r'

def jsonSkipWs (cs : List Char) : List Char :=
  cs.dropWhile isJsonWs

/-- Parse the body of a JSON string literal (after the opening quote). -/
def parseStringBody : Nat → List Char → Option (List Char × List Char)
  | 0, _ => none
  | _ + 1, [] => none
  | f + 1, c :: rest =>
      if c = '"' then some ([], rest)
      else if c = '\\' then
        match rest with
        | e :: rest2 =>
            let dec : Option Char :=
              if e = '"' then some '"'
              else if e = '\\' then some '\\'
              else if e = '/' then some '/'
              else if e = 'n' then some '\n'
              else if e = 't' then some '\t'
              else if e = 'r' then some '\r'
              else if e = 'b' then some (Char.ofNat 8)
              else if e = 'f' then some (Char.ofNat 12)
              else none
            match dec with
            | some d => (parseStringBody f rest2).map (fun p => (d :: p.1, p.2))
            | none => none
        | [] => none
      else (parseStringBody f rest).map (fun p => (c :: p.1, p.2))

def digitsToNat (ds : List Char) : Nat :=
  ds.foldl (fun a c => a * 10 + (c.toNat - 48)) 0

def parseNumCore (cs : List Char) : Option (Nat × List Char) :=
  let p := cs.span Char.isDigit
  if p.1.isEmpty then none
  else
    match p.2 with
    | '.' :: _ => none
    | 'e' :: _ => none
    | 'E' :: _ => none
    | _ => some (digitsToNat p.1, p.2)

def parseNumber (cs : List Char) : Option (Int × List Char) :=
  match cs with
  | '-' :: rest => (parseNumCore rest).map (fun p => (-(p.1 : Int), p.2))
  | _ => (parseNumCore cs).map (fun p => ((p.1 : Int), p.2))

mutual
/-- Parse one JSON value.  The fuel bounds recursion depth and is always
supplied large enough (depth is at most twice the input length). -/
def parseJsonValF : Nat → List Char → Option (Json × List Char)
  | 0, _ => none
  | f + 1, cs0 =>
      match jsonSkipWs cs0 with
      | [] => none
      | c :: rest =>
          if c = '"' then
            (parseStringBody (rest.length + 1) rest).map
              (fun p => (Json.str (String.mk p.1), p.2))
          else if c = lbraceChar then
            match jsonSkipWs rest with
            | b :: r2 =>
                if b = rbraceChar then some (Json.obj [], r2)
                else
                  (parseJsonMembersF f rest).map
                    (fun p =>
                      (Json.obj (p.1.foldl (fun acc kv => Json.setFields acc kv.1 kv.2) []),
                        p.2))
            | [] => none
          else if c = '[' then
            match jsonSkipWs rest with
            | ']' :: r2 => some (Json.arr [], r2)
            | _ => (parseJsonItemsF f rest).map (fun p => (Json.arr p.1, p.2))
          else if listStarts (c :: rest) "true".toList then
            some (Json.bool true, (c :: rest).drop 4)
          else if listStarts (c :: rest) "false".toList then
            some (Json.bool false, (c :: rest).drop 5)
          else if listStarts (c :: rest) "null".toList then
            some (Json.null, (c :: rest).drop 4)
          else (parseNumber (c :: rest)).map (fun p => (Json.num p.1, p.2))

/-- Parse a non-empty comma-separated item list followed by `]`. -/
def parseJsonItemsF : Nat → List Char → Option (List Json × List Char)
  | 0, _ => none
  | f + 1, cs => do
      let (v, r) ← parseJsonValF f cs
      match jsonSkipWs r with
      | ',' :: r2 =>
          match parseJsonItemsF f r2 with
          | some (xs, r3) => some (v :: xs, r3)
          | none => none
      | ']' :: r2 => some ([v], r2)
      | _ => none

/-- Parse a non-empty member list of an object followed by the closing
brace. -/
def parseJsonMembersF : Nat → List Char → Option (List (String × Json) × List Char)
  | 0, _ => none
  | f + 1, cs =>
      match jsonSkipWs cs with
      | '"' :: rest => do
          let (k, r) ← parseStringBody (rest.length + 1) rest
          match jsonSkipWs r with
          | ':' :: r2 => do
              let (v, r3) ← parseJsonValF f r2
              match jsonSkipWs r3 with
              | ',' :: r4 =>
                  match parseJsonMembersF f r4 with
                  | some (ms, r5) => some ((String.mk k, v) :: ms, r5)
                  | none => none
              | b :: r4 =>
                  if b = rbraceChar then some ([(String.mk k, v)], r4) else none
              | [] => none
          | _ => none
      | _ => none
end

/-- Model of `json.loads` (restricted as described above).  Duplicate
object keys are collapsed Python-style: position of the first
occurrence, value of the last. -/
def jsonLoads (s : String) : Py Json :=
  match parseJsonValF (2 * s.toList.length + 8) s.toList with
  | some (j, rest) =>
      if jsonSkipWs rest = [] then Except.ok j else Except.error PyErr.jsonDecodeError
  | none => Except.error PyErr.jsonDecodeError

/- ---------------------------------------------------------------------
DiagnosisParser: `parse_ollama_instructions` and its helpers.
--------------------------------------------------------------------- -/

/-- The literal tag opening a fenced block. -/
def fencedTag : List Char :=
  [backtickChar, backtickChar, backtickChar, 'j', 's', 'o', 'n']

/-- Split at the first occurrence of `pat`: `(before, after-the-match)`. -/
def splitAtSub (pat : List Char) : List Char → Option (List Char × List Char)
  | [] => if pat.isEmpty then some ([], []) else none
  | c :: rest =>
      if listStarts (c :: rest) pat then some ([], (c :: rest).drop pat.length)
      else (splitAtSub pat rest).map (fun p => (c :: p.1, p.2))

/-- The suffixes following each newline of a character list, in order of
occurrence. -/
def afterNewlines : List Char → List (List Char)
  | [] => []
  | c :: rest =>
      if c = '\n' then rest :: afterNewlines rest else afterNewlines rest

/-- Attempt the tail of the pattern ```` ```json\s*\n(.*?)\n``` ````
right after the tag: the whitespace run must contain a newline, the
engine prefers the latest one (greedy `\s*` backtracking), and the lazy
group ends at the earliest following `"\n``` "`. -/
def fencedTry (rest : List Char) : Option (List Char) :=
  let w := rest.takeWhile isPyWs
  let tailA := rest.drop w.length
  (afterNewlines w).reverse.findSome? (fun sufW =>
    (splitAtSub ('\n' :: [backtickChar, backtickChar, backtickChar]) (sufW ++ tailA)).map
      (fun p => p.1))

/-- `re.findall(r'```json\s*\n(.*?)\n```', s, re.DOTALL)` — contents of
the first fenced block (the source only uses match number one). -/
def fencedSearch : List Char → Option (List Char)
  | [] => none
  | c :: rest =>
      if listStarts (c :: rest) fencedTag then
        match fencedTry ((c :: rest).drop fencedTag.length) with
        | some content => some content
        | none => fencedSearch rest
      else fencedSearch rest

def fencedJsonBlock (s : String) : Option String :=
  (fencedSearch s.toList).map String.mk

/-- Strategy 2 of the parser: the slice from the first `{` to the last
`}` when the latter comes strictly after the former. -/
def braceSlice (s : String) : Option String :=
  let cs := s.toList
  match cs.findIdx? (fun c => c = lbraceChar),
      (cs.reverse.findIdx? (fun c => c = rbraceChar)).map (fun r => cs.length - 1 - r) with
  | some st, some en =>
      if st < en then some (String.mk ((cs.drop st).take (en - st + 1))) else none
  | _, _ => none

/-- The candidate JSON text of `parse_ollama_instructions`; `""` plays
the role of Python's falsy `None`/empty string. -/
def candidateJsonStr (s : String) : String :=
  let js1 :=
    match fencedJsonBlock s with
    | some m => strStrip m
    | none => ""
  if js1 = "" then
    match braceSlice s with
    | some b => b
    | none => ""
  else js1

/-- The in-place fix of one change of the parsed instructions
(source lines 187-209): an `update_image` whose value is a dict is
rewritten to a string, and the final value is forced to be a string
containing a colon. -/
def coerceOneChange (change : Json) : Py Json := do
  let t ← pyDictGet change "type" Json.null
  if t = Json.str "update_image" then do
    let image_value ← pyDictGet change "value" Json.null
    let change1 :=
      match image_value with
      | Json.obj fs =>
          if (Json.lookup.fieldsGet fs "image").isSome then
            change.setKey "value" ((Json.lookup.fieldsGet fs "image").getD Json.null)
          else if (Json.lookup.fieldsGet fs "name").isSome then
            change.setKey "value" ((Json.lookup.fieldsGet fs "name").getD Json.null)
          else
            let repo := (Json.lookup.fieldsGet fs "repository").getD
              ((Json.lookup.fieldsGet fs "repo").getD (Json.str "nginx"))
            let tag := (Json.lookup.fieldsGet fs "tag").getD (Json.str "latest")
            change.setKey "value" (Json.str (pyStrOf repo ++ ":" ++ pyStrOf tag))
      | _ => change
    let cv ← pySubscrStr change1 "value"
    match cv with
    | Json.str s =>
        if strContainsSub s ":" then pure change1
        else pure (change1.setKey "value" (Json.str "nginx:latest"))
    | _ => pure (change1.setKey "value" (Json.str "nginx:latest"))
  else pure change

/-- `if instructions and 'changes' in instructions: for change in
instructions['changes']: ...` — iterating a list mutates its elements;
iterating any other (empty) iterable leaves the instructions untouched;
a non-empty non-list iterable faults on the first element's `.get`. -/
def coerceChanges (ins : Json) : Py Json := do
  if pyTruthy ins then do
    let hasCh ← pyInStr "changes" ins
    if hasCh then do
      let chs ← pySubscrStr ins "changes"
      match chs with
      | Json.arr xs => do
          let xs2 ← xs.mapM coerceOneChange
          pure (ins.setKey "changes" (Json.arr xs2))
      | _ => do
          let items ← pyIter chs
          let _ ← items.mapM coerceOneChange
          pure ins
    else pure ins
  else pure ins

/-- Keyword taxonomy of `extract_fallback_instructions`, in source
order. -/
def problem_patterns : List (String × List String) :=
  [("image_pull_backoff",
      ["imagepullbackoff", "image pull", "pull backoff", "errimagepull",
       "image not found", "pull error", "repository does not exist",
       "manifest unknown", "unauthorized", "image pull failed"]),
   ("readiness_probe_failure",
      ["readiness probe", "readiness check", "ready probe", "/health",
       "health check", "probe failed", "readiness"]),
   ("liveness_probe_failure",
      ["liveness probe", "liveness check", "live probe", "liveness"]),
   ("command_failure",
      ["command failed", "command error", "exec error", "entrypoint",
       "exit code", "crashed", "container exited", "command not found"])]

/-- First matching problem type, else `"other"`. -/
def detectProblemType (lower : String) : String :=
  match problem_patterns.find? (fun pk => pk.2.any (fun kw => strContainsSub lower kw)) with
  | some pk => pk.1
  | none => "other"

def extract_suggested_image_from_text (text : String) : String :=
  let tl := strLower text
  if ["nginx", "web server"].any (fun w => strContainsSub tl w) then "nginx:1.21"
  else if ["apache", "httpd"].any (fun w => strContainsSub tl w) then "httpd:2.4"
  else if ["python", "flask", "django"].any (fun w => strContainsSub tl w) then "python:3.9-slim"
  else if ["node", "nodejs", "npm"].any (fun w => strContainsSub tl w) then "node:16-alpine"
  else if ["java", "openjdk"].any (fun w => strContainsSub tl w) then "openjdk:11-jre-slim"
  else "nginx:latest"

def extract_command_from_text (text : String) : Json :=
  let tl := strLower text
  if strContainsSub tl "sleep" then
    Json.arr [Json.str "/bin/sh", Json.str "-c", Json.str "sleep infinity"]
  else if strContainsSub tl "nginx" then
    Json.arr [Json.str "nginx", Json.str "-g", Json.str "daemon off;"]
  else if strContainsSub tl "apache" || strContainsSub tl "httpd" then
    Json.arr [Json.str "httpd-foreground"]
  else if strContainsSub tl "python" then
    Json.arr [Json.str "python", Json.str "-c", Json.str "import time; time.sleep(3600)"]
  else if strContainsSub tl "node" then
    Json.arr [Json.str "node", Json.str "-e",
      Json.str "setInterval(() => console.log(\x27alive\x27), 10000)"]
  else
    Json.arr [Json.str "/bin/sh", Json.str "-c",
      Json.str "echo \x27Command extraction failed - manual review needed\x27"]

/-- The dict literal opening `extract_fallback_instructions`. -/
def fallbackBase : Json :=
  Json.obj
    [("problem_type", Json.str "other"),
     ("problem_analysis", Json.str "Fallback analysis - JSON parsing failed"),
     ("validation_required", Json.bool false),
     ("changes", Json.arr []),
     ("expected_impact", Json.str "Manual review required"),
     ("requires_pr", Json.bool false)]

/-- Body of `extract_fallback_instructions` under the exception
semantics: none of its operations can raise, so it is `Except.ok` of a
pure computation (its `try/except Exception: return None` is kept in
`extract_fallback_instructions`). -/
def extractFallbackRun (s : String) : Py Json :=
  Except.ok
    (let lower := strLower s
     let detected := detectProblemType lower
     let ins1 := fallbackBase.setKey "problem_type" (Json.str detected)
     if detected = "image_pull_backoff" then
       let suggested := extract_suggested_image_from_text s
       (((((ins1.setKey "changes"
             (Json.arr [Json.obj
               [("type", Json.str "update_image"), ("path", Json.arr [Json.str "0"]),
                ("value", Json.str suggested),
                ("description",
                  Json.str ("Replace failing image with working " ++ suggested))]])).setKey
           "requires_pr" (Json.bool true)).setKey
           "validation_required" (Json.bool true)).setKey
           "validation_type" (Json.str "image_check")).setKey
           "validation_data" (Json.obj [("image", Json.str suggested)])).setKey
           "expected_impact" (Json.str "Pod should pull image successfully")
     else if detected = "command_failure" then
       let cmd := extract_command_from_text s
       ((ins1.setKey "changes"
           (Json.arr [Json.obj
             [("type", Json.str "update_command"), ("path", Json.arr [Json.str "0"]),
              ("value", cmd),
              ("description", Json.str "Fix container command to prevent exit")]])).setKey
         "requires_pr" (Json.bool true)).setKey
         "expected_impact" (Json.str "Container should start and stay running")
     else ins1)

/-- `extract_fallback_instructions`: the body above guarded by
`except Exception: return None` (`Json.null` models Python `None`). -/
def extract_fallback_instructions (s : String) : Json :=
  match extractFallbackRun s with
  | Except.ok j => j
  | Except.error _ => Json.null

/-- The `try:` body of `parse_ollama_instructions`.  A missing JSON-like
region returns the fallback directly (that is a `return`, not an
exception); a decode failure or any fault of the coercion loop
propagates. -/
def parseTryBody (s : String) : Py Json := do
  let jsonStr := candidateJsonStr s
  if jsonStr = "" then pure (extract_fallback_instructions s)
  else do
    let cleaned := clean_json_string jsonStr
    let instructions ← jsonLoads cleaned
    coerceChanges instructions

/-- `parse_ollama_instructions` with its exception handlers made
explicit: what escapes to the caller is an `Except`, and both handlers
(`json.JSONDecodeError` and the catch-all) route to the fallback. -/
def parse_checked (s : String) : Py Json :=
  match parseTryBody s with
  | Except.ok j => Except.ok j
  | Except.error PyErr.jsonDecodeError => Except.ok (extract_fallback_instructions s)
  | Except.error _ => Except.ok (extract_fallback_instructions s)

/-- The caller-facing `parse_ollama_instructions` (`Json.null` models a
Python `None` result). -/
def parse_ollama_instructions (s : String) : Json :=
  match parse_checked s with
  | Except.ok j => j
  | Except.error _ => Json.null

/-- `validate_instructions_structure`. -/
def validate_instructions_structure (instructions : Json) : Bool :=
  instructions.isObj
    && ["problem_type", "requires_pr"].all (fun k => (instructions.lookup k).isSome)

/- ---------------------------------------------------------------------
ManifestLocator: `find_containers_in_manifest`.
--------------------------------------------------------------------- -/

/-- The `containers = containers.get(key, {}); if not containers: break`
walk of `find_containers_in_manifest`: descend while values are truthy,
stopping early at the first falsy value (which is returned).  `.get` on
a truthy non-dict raises `AttributeError`. -/
def walkPath : Json → List String → Py Json
  | j, [] => Except.ok j
  | j, k :: ks => do
      let v ← pyDictGet j k (Json.obj [])
      if pyTruthy v then walkPath v ks else Except.ok v

/-- The kind-specific lookup table (`container_paths`). -/
def container_paths : String → Option (List String)
  | "deployment" => some ["spec", "template", "spec", "containers"]
  | "daemonset" => some ["spec", "template", "spec", "containers"]
  | "statefulset" => some ["spec", "template", "spec", "containers"]
  | "replicaset" => some ["spec", "template", "spec", "containers"]
  | "pod" => some ["spec", "containers"]
  | "job" => some ["spec", "template", "spec", "containers"]
  | "cronjob" => some ["spec", "jobTemplate", "spec", "template", "spec", "containers"]
  | _ => none

/-- The ordered generic fallback paths. -/
def fallback_paths : List (List String) :=
  [["spec", "template", "spec", "containers"],
   ["spec", "containers"],
   ["spec", "jobTemplate", "spec", "template", "spec", "containers"]]

/-- Scan the fallback paths in order for the first one whose walk ends at
a non-empty list. -/
def fallbackScan (manifest : Json) : List (List String) → Py (Option (List Json × List String))
  | [] => Except.ok none
  | p :: ps => do
      let w ← walkPath manifest p
      match w with
      | Json.arr (x :: xs) => Except.ok (some (x :: xs, p))
      | _ => fallbackScan manifest ps

/-- `find_containers_in_manifest`: kind-specific path first — returned
whenever its walk ends at *any* list, the empty list included — then the
generic fallbacks, which demand a non-empty list; `none` models the
`(None, None)` return. -/
def find_containers_in_manifest (manifest : Json) : Py (Option (List Json × List String)) := do
  let kindJ ← pyDictGet manifest "kind" (Json.str "")
  let kind ← pyLower kindJ
  match container_paths kind with
  | some path => do
      let w ← walkPath manifest path
      match w with
      | Json.arr xs => Except.ok (some (xs, path))
      | _ => fallbackScan manifest fallback_paths
  | none => fallbackScan manifest fallback_paths

/- ---------------------------------------------------------------------
PatchEngine: `apply_manifest_changes`.
--------------------------------------------------------------------- -/

/-- Replace the value sitting at a key path (every key present in the
successful runs where this is used); mirrors that the walked-to
container list is mutated in place inside its document. -/
def setAtPath : Json → List String → Json → Json
  | _, [], v => v
  | Json.obj fs, k :: ks, v =>
      Json.obj (Json.setFields fs k
        (setAtPath ((Json.lookup.fieldsGet fs k).getD (Json.obj [])) ks v))
  | j, _ :: _, _ => j

/-- `int(path[0]) if path and path[0].isdigit() else 0`, wrapped in
`except (ValueError, IndexError): 0`.  Other exception kinds (a dict or
number where a sequence of strings is expected) propagate, exactly as in
the source. -/
def computeContainerIdx (path : Json) : Py Nat :=
  match go with
  | Except.error PyErr.valueError => Except.ok 0
  | Except.error PyErr.indexError => Except.ok 0
  | r => r
where
  go : Py Nat :=
    if pyTruthy path then do
      let p0 ← pySubscrNat path 0
      match p0 with
      | Json.str s =>
          if s ≠ "" && s.toList.all Char.isDigit then
            Except.ok (digitsToNat s.toList)
          else Except.ok 0
      | _ => Except.error PyErr.attributeError
    else Except.ok 0

/-- The final guard of the `update_image` branch (source lines 478-481):
anything that is not a string containing a colon becomes the fixed
fallback image. -/
def imageColonGuard (v1 : Json) : Json :=
  match v1 with
  | Json.str s => if strContainsSub s ":" then Json.str s else Json.str "nginx:latest"
  | _ => Json.str "nginx:latest"

/-- The image-string coercion of the `update_image` branch of
`apply_manifest_changes` (lines 462-481): dict values probed for
`image`, `name`, `repository`+`tag`, `repo`+`tag`, then the final guard
forcing a string containing a colon. -/
def resolveImageValue (value : Json) : Json :=
  imageColonGuard
    (match value with
    | Json.obj fs =>
        if (Json.lookup.fieldsGet fs "image").isSome then
          (Json.lookup.fieldsGet fs "image").getD Json.null
        else if (Json.lookup.fieldsGet fs "name").isSome then
          (Json.lookup.fieldsGet fs "name").getD Json.null
        else if (Json.lookup.fieldsGet fs "repository").isSome
            && (Json.lookup.fieldsGet fs "tag").isSome then
          Json.str (pyStrOf ((Json.lookup.fieldsGet fs "repository").getD Json.null) ++ ":"
            ++ pyStrOf ((Json.lookup.fieldsGet fs "tag").getD Json.null))
        else if (Json.lookup.fieldsGet fs "repo").isSome
            && (Json.lookup.fieldsGet fs "tag").isSome then
          Json.str (pyStrOf ((Json.lookup.fieldsGet fs "repo").getD Json.null) ++ ":"
            ++ pyStrOf ((Json.lookup.fieldsGet fs "tag").getD Json.null))
        else Json.str "nginx:latest"
    | v => v)

/-- The list coercion shared by `update_command` and `update_args`:
strings wrap, lists pass, anything else is stringified into a singleton
list. -/
def coerceToList (value : Json) : Json :=
  match value with
  | Json.str s => Json.arr [Json.str s]
  | Json.arr xs => Json.arr xs
  | v => Json.arr [Json.str (pyStrOf v)]

/-- One iteration of the change loop of `apply_manifest_changes`
(source lines 433-555), acting on the located container list. -/
def applyOneChange (containers : List Json) (change : Json) : Py (List Json) := do
  let change_type ← pyDictGet change "type" Json.null
  let path ← pyDictGet change "path" (Json.arr [Json.str "0"])
  let value ← pyDictGet change "value" Json.null
  let _descr ← pyDictGet change "description" (Json.str "No description")
  let idx0 ← computeContainerIdx path
  let idx := if idx0 ≥ containers.length then 0 else idx0
  match containers.get? idx with
  | none => Except.error PyErr.indexError
  | some container => do
      let _nm ← pyDictGet container "name" (Json.str "unnamed")
      if change_type = Json.str "update_image" then do
        let _old ← pyDictGet container "image" (Json.str "none")
        Except.ok (containers.set idx (container.setKey "image" (resolveImageValue value)))
      else if change_type = Json.str "update_command" then do
        let _old ← pyDictGet container "command" (Json.arr [])
        Except.ok (containers.set idx (container.setKey "command" (coerceToList value)))
      else if change_type = Json.str "update_args" then do
        let _old ← pyDictGet container "args" (Json.arr [])
        Except.ok (containers.set idx (container.setKey "args" (coerceToList value)))
      else if change_type = Json.str "update_readiness_probe" then do
        let _old ← pyDictGet container "readinessProbe" (Json.obj [])
        if value.isObj then
          Except.ok (containers.set idx (container.setKey "readinessProbe" value))
        else Except.ok containers
      else if change_type = Json.str "update_liveness_probe" then do
        let _old ← pyDictGet container "livenessProbe" (Json.obj [])
        if value.isObj then
          Except.ok (containers.set idx (container.setKey "livenessProbe" value))
        else Except.ok containers
      else if change_type = Json.str "add_env_var" then do
        let hasEnv ← pyInStr "env" container
        let container1 := if hasEnv then container else container.setKey "env" (Json.arr [])
        match value with
        | Json.obj fs =>
            if (Json.lookup.fieldsGet fs "name").isSome
                && (Json.lookup.fieldsGet fs "value").isSome then do
              let envList ← pySubscrStr container1 "env"
              let envList2 ← pyAppend envList value
              Except.ok (containers.set idx (container1.setKey "env" envList2))
            else Except.ok (containers.set idx container1)
        | _ => Except.ok (containers.set idx container1)
      else if change_type = Json.str "update_ports" then
        if value.isArr then
          Except.ok (containers.set idx (container.setKey "ports" value))
        else Except.ok containers
      else Except.ok containers

/-- The `for m in manifests: if m.get("metadata", {}).get("name") ==
target: ...` selection loop; `ValueError` when no document matches. -/
def selectTargetLoop (name : String) : List Json → Nat → Py Nat
  | [], _ => Except.error PyErr.valueError
  | m :: rest, i => do
      let md ← pyDictGet m "metadata" (Json.obj [])
      let n ← pyDictGet md "name" Json.null
      if n = Json.str name then Except.ok i else selectTargetLoop name rest (i + 1)

/-- The part of `apply_manifest_changes` between target selection and
the change loop: evaluate the loggable `.get`s and `len(changes)`,
locate the containers, and reject a falsy (absent or empty) container
list. -/
def applySetupTail (manifests : List Json) (changes : Json) (ti : Nat) :
    Py (Nat × List Json × List String) := do
  let manifest := manifests.getD ti Json.null
  let _k ← pyDictGet manifest "kind" (Json.str "Unknown")
  let md ← pyDictGet manifest "metadata" (Json.obj [])
  let _nm ← pyDictGet md "name" (Json.str "unknown")
  let _len ← pyLen changes
  let found ← find_containers_in_manifest manifest
  match found with
  | none => Except.error PyErr.valueError
  | some (cs, cpath) =>
      if cs.isEmpty then Except.error PyErr.valueError
      else Except.ok (ti, cs, cpath)

/-- Everything of `apply_manifest_changes` before the change loop:
reject an empty document list, select the target document, then
`applySetupTail`. -/
def applySetup (manifests : List Json) (changes : Json) (target : Option String) :
    Py (Nat × List Json × List String) :=
  if manifests.isEmpty then Except.error PyErr.valueError
  else
    (match target with
     | some name => selectTargetLoop name manifests 0
     | none => Except.ok 0) >>= fun ti =>
    applySetupTail manifests changes ti

/-- `apply_manifest_changes`, on the parsed document list (the
`yaml.safe_load_all` / `safe_dump_all` serialisation boundary is outside
the model, so "byte-for-byte up to formatting" is plain equality of
documents).  The outer `except Exception: log; raise` re-raises, so the
function equals its body. -/
def apply_manifest_changes (manifests : List Json) (changes : Json)
    (target : Option String) : Py (List Json) := do
  let (ti, cs, cpath) ← applySetup manifests changes target
  let items ← pyIter changes
  let cs2 ← items.foldlM applyOneChange cs
  Except.ok (manifests.set ti (setAtPath (manifests.getD ti Json.null) cpath (Json.arr cs2)))

/- ---------------------------------------------------------------------
ChangeProposalPublisher: `create_fix_pr` against a structural model of
the external versioned store (GitHub).  File contents are kept as parsed
document lists (the YAML boundary again), review-request URLs are
generated deterministically from a counter, and the clock is passed in
as the `timestamp` argument.
--------------------------------------------------------------------- -/

/-- One review request of the store. -/
structure PullReq where
  headRef : String
  baseRef : String
  htmlUrl : String
  isOpenPR : Bool
deriving DecidableEq

/-- The externally synchronised store state. -/
structure GithubState where
  pulls : List PullReq
  branches : List String
  files : List (String × List Json)
  baseSha : String
  commits : List (String × String)
  nextPrId : Nat
deriving DecidableEq

/-- `os.getenv("GITHUB_BRANCH", "main")` with its default. -/
def GITHUB_BRANCH : String := "main"

/-- `pr_already_exists`: the first open review request against the base
branch whose head ref starts with the given text. -/
def pr_already_exists (st : GithubState) (branch_pre : String) : Option String :=
  ((st.pulls.filter (fun p => p.isOpenPR && p.baseRef == GITHUB_BRANCH)).find?
    (fun p => strStarts p.headRef branch_pre)).map (fun p => p.htmlUrl)

/-- `get_manifest_path`: `manifest_map.get(problem_type,
manifest_map["other"])`.  Unhashable keys (lists, dicts) raise
`TypeError`; any other key outside the map falls to the default. -/
def get_manifest_path (problem_type : Json) : Py String :=
  if problem_type.isArr || problem_type.isObj then Except.error PyErr.typeError
  else
    Except.ok
      (match problem_type with
       | Json.str "readiness_probe_failure" => "app/readiness-fail.yaml"
       | Json.str "liveness_probe_failure" => "app/liveness-fail.yaml"
       | Json.str "image_pull_backoff" => "app/imagepullbackoff-fail.yaml"
       | Json.str "command_failure" => "app/commandfail-fail.yaml"
       | _ => "app/failing-app.yaml")

/-- `repo.get_contents(path, ref=GITHUB_BRANCH)`: a missing file raises
(the store client throws, caught by `create_fix_pr`'s handler). -/
def getContentsDocs (st : GithubState) (path : String) : Py (List Json) :=
  match st.files.find? (fun f => f.1 == path) with
  | some f => Except.ok f.2
  | none => Except.error PyErr.valueError

/-- The `"\n".join(f"- {change.get('type')}: {change.get('description',
'No description')}" ...)` summary. -/
def changeSummary (changes : Json) : Py String := do
  let items ← pyIter changes
  let lines ← items.mapM (fun c => do
    let t ← pyDictGet c "type" Json.null
    let d ← pyDictGet c "description" (Json.str "No description")
    pure ("- " ++ pyStrOf t ++ ": " ++ pyStrOf d))
  pure (String.intercalate "\n" lines)

/-- The PR body literal of `create_fix_pr`. -/
def prBodyText (pod pa summary impact : String) : String :=
  "## Auto-Generated Fix for Pod: " ++ pod
    ++ "\n\n\n### Root Cause Analysis Summary:\n" ++ pa
    ++ "\n\n\n### Changes Applied:\n" ++ summary
    ++ "\n\n\n### Impact:\n" ++ impact
    ++ "\n\n\n---\n*This PR was automatically generated by the K8s Admin AI assistant based on alert analysis.*\n"

/-- The steps of `create_fix_pr` before the duplicate check: resolve the
manifest path from the problem type, fetch the file, reject an
instruction without changes (the early `return None`), and patch the
documents. -/
def createFixPrepare (st : GithubState) (instructions : Json) :
    Py (Option (String × Json × List Json)) := do
  let pt ← pyDictGet instructions "problem_type" (Json.str "other")
  let mpath ← get_manifest_path pt
  let docs ← getContentsDocs st mpath
  let changes ← pyDictGet instructions "changes" (Json.arr [])
  if pyTruthy changes then do
    let fixedDocs ← apply_manifest_changes docs changes none
    Except.ok (some (mpath, changes, fixedDocs))
  else Except.ok none

/-- The `try:` body of `create_fix_pr`.  After the first store mutation
(branch creation) every remaining operation is total in this model —
the summary and body `.get`s act on values `apply_manifest_changes`
already dereferenced — so the exceptional exit never has to roll back a
mutated state. -/
def createFixRun (st : GithubState) (pod_name : Json) (instructions : Json)
    (timestamp : String) : Py (Option String × GithubState) := do
  let prep ← createFixPrepare st instructions
  match prep with
  | none => Except.ok (none, st)
  | some (mpath, changes, _fixedDocs) => do
      let branchPre := "fix/" ++ pyStrOf pod_name
      match pr_already_exists st branchPre with
      | some url => Except.ok (some url, st)
      | none => do
          let branch_name := branchPre ++ "-" ++ timestamp
          let st1 : GithubState := { st with branches := st.branches ++ [branch_name] }
          let summary ← changeSummary changes
          let pa ← pyDictGet instructions "problem_analysis" (Json.str "Analysis not available")
          let impact ← pyDictGet instructions "expected_impact"
            (Json.str "Expected to resolve the pod failure")
          let _ptCommitMsg ← pyDictGet instructions "problem_type" (Json.str "issue")
          let _body := prBodyText (pyStrOf pod_name) (pyStrOf pa) summary (pyStrOf impact)
          let st2 : GithubState := { st1 with commits := st1.commits ++ [(branch_name, mpath)] }
          let _ptTitle ← pyDictGet instructions "problem_type" (Json.str "issue")
          let url := "https://example.invalid/pull/" ++ toString st2.nextPrId
          let st3 : GithubState :=
            { st2 with
              pulls := st2.pulls ++ [⟨branch_name, GITHUB_BRANCH, url, true⟩],
              nextPrId := st2.nextPrId + 1 }
          Except.ok (some url, st3)

/-- `create_fix_pr`: the body above under `except Exception: return
None`. -/
def create_fix_pr (st : GithubState) (pod_name : Json) (instructions : Json)
    (_rca_summary : String) (timestamp : String) : Option String × GithubState :=
  match createFixRun st pod_name instructions timestamp with
  | Except.ok r => r
  | Except.error _ => (none, st)

/- ---------------------------------------------------------------------
Webhook layer: `format_alert`, `compose_slack_alert_blocks`,
`handle_alert`.
--------------------------------------------------------------------- -/

def format_alert (alert : Json) : Py String := do
  let statusJ ← pyDictGet alert "status" (Json.str "unknown")
  let status ← pyUpper statusJ
  let labels ← pyDictGet alert "labels" (Json.obj [])
  let annotations ← pyDictGet alert "annotations" (Json.obj [])
  let starts_at ← pyDictGet alert "startsAt" (Json.str "N/A")
  let ends_at ← pyDictGet alert "endsAt" (Json.str "N/A")
  let alertname ← pyDictGet labels "alertname" (Json.str "unknown")
  let inst ← pyDictGet labels "instance" (Json.str "-")
  let cluster ← pyDictGet labels "cluster" (Json.str "-")
  let pod ← pyDictGet labels "pod" (Json.str "-")
  let container ← pyDictGet labels "container" (Json.str "-")
  let descr ← pyDictGet annotations "description" (Json.str "-")
  let summ ← pyDictGet annotations "summary" (Json.str "-")
  pure ("\n🚨 *Status:* `" ++ status ++ "`\n📛 *Alert:* `" ++ pyStrOf alertname
    ++ "`\n📦 *Instance:* `" ++ pyStrOf inst ++ "`\n☁️ *Cluster:* `" ++ pyStrOf cluster
    ++ "`\n📦 *Pod:* `" ++ pyStrOf pod ++ "`\n📂 *Container:* `" ++ pyStrOf container
    ++ "`\n📝 *Description:* `" ++ pyStrOf descr ++ "`\n💬 *Summary:* `" ++ pyStrOf summ
    ++ "`\n🕐 *Starts At:* `" ++ pyStrOf starts_at ++ "`\n🕐 *Ends At:* `"
    ++ pyStrOf ends_at ++ "`\n")

def problem_emojis : List (String × String) :=
  [("readiness_probe_failure", "🔍"), ("liveness_probe_failure", "🔍"),
   ("image_pull_backoff", "🖼️"), ("command_failure", "📝"), ("other", "❓")]

/-- `problem_emojis.get(problem_type, "❓")` for hashable keys. -/
def emojiFor (pt : Json) : String :=
  match pt with
  | Json.str s =>
      match problem_emojis.find? (fun e => e.1 == s) with
      | some e => e.2
      | none => "❓"
  | _ => "❓"

/-- A word-by-word approximation of `str.title()`, exact on the
lower-case snake-case inputs it receives. -/
def titleCase (s : String) : String :=
  String.intercalate " "
    ((strSplitChar s ' ').map (fun w =>
      match w.toList with
      | [] => ""
      | c :: rest => String.mk (c.toUpper :: rest.map Char.toLower)))

/-- The `elif rca: ... else: "No analysis available."` arm of the
`ai_issue` computation. -/
def aiIssueFromRca (rca : String) : String :=
  if rca ≠ "" then strTakeN ((strSplitChar (strStrip rca) '\n').headD "") 120
  else "No analysis available."

/-- A Slack `section` block with an `mrkdwn` text. -/
def slackSection (text : String) : Json :=
  Json.obj [("type", Json.str "section"),
            ("text", Json.obj [("type", Json.str "mrkdwn"), ("text", Json.str text)])]

/-- Insert at an index (Python `list.insert`). -/
def listInsertAt {α : Type} : Nat → α → List α → List α
  | 0, a, xs => a :: xs
  | _ + 1, a, [] => [a]
  | n + 1, a, x :: xs => x :: listInsertAt n a xs

def compose_slack_alert_blocks (alerts : Json) (instructions : Json) (rca : String)
    (pr_url : Option String) (validation_result : Option String) (nowShort : String) :
    Py Json := do
  let main_alert ← pySubscrNat alerts 0
  let statusJ ← pyDictGet main_alert "status" (Json.str "unknown")
  let status ← pyUpper statusJ
  let labels ← pyDictGet main_alert "labels" (Json.obj [])
  let annotations ← pyDictGet main_alert "annotations" (Json.obj [])
  let alert_name ← pyDictGet labels "alertname" (Json.str "unknown")
  let pod_name ← pyDictGet labels "pod" (Json.str "unknown")
  let cluster ← pyDictGet labels "cluster" (Json.str "XConfDemo")
  let description ← pyDictGet annotations "description" (Json.str "XConf Demo Application")
  let problem_type ←
    if pyTruthy instructions then pyDictGet instructions "problem_type" Json.null
    else pure (Json.str "other")
  let problem_icon ←
    if problem_type.isArr || problem_type.isObj then Except.error PyErr.typeError
    else pure (emojiFor problem_type)
  let ai_issue ←
    if pyTruthy instructions then do
      let pa ← pyDictGet instructions "problem_analysis" Json.null
      if pyTruthy pa then do
        let pa2 ← pyDictGet instructions "problem_analysis" (Json.str "")
        match pa2 with
        | Json.str s => pure (strTakeN ((strSplitChar s '\n').headD "") 120)
        | _ => Except.error PyErr.attributeError
      else pure (aiIssueFromRca rca)
    else pure (aiIssueFromRca rca)
  let ai_fix ←
    if pyTruthy instructions then do
      let chs ← pyDictGet instructions "changes" Json.null
      if pyTruthy chs then do
        let chs2 ← pySubscrStr instructions "changes"
        let c0 ← pySubscrNat chs2 0
        let d ← pyDictGet c0 "description" (Json.str "")
        pySliceTake d 100
      else pure (Json.str "")
    else pure (Json.str "")
  let action_line ←
    match pr_url with
    | some u => pure ("🔧 Auto-Fix PR Created - <" ++ u ++ "|Ready to review & merge>")
    | none =>
        if pyTruthy instructions then do
          let rq ← pyDictGet instructions "requires_pr" Json.null
          if pyTruthy rq then pure "⚠️ PR creation failed - manual review needed"
          else pure "⬆️ Manual investigation required"
        else pure "⬆️ Manual investigation required"
  let ptTitle ←
    match problem_type with
    | Json.str s => pure (titleCase (strReplaceChar s '_' ' '))
    | _ => Except.error PyErr.attributeError
  let blocks : List Json :=
    [Json.obj [("type", Json.str "header"),
               ("text", Json.obj [("type", Json.str "plain_text"),
                                  ("text", Json.str "🤖 K8s Alert - Auto Analysis"),
                                  ("emoji", Json.bool true)])],
     slackSection ("🔥 *" ++ pyStrOf alert_name ++ "* (" ++ status ++ ")"),
     slackSection ("📦 *Pod:* `" ++ pyStrOf pod_name ++ "` in `" ++ pyStrOf cluster
       ++ "`\n💬 " ++ pyStrOf description),
     slackSection (problem_icon ++ " *" ++ ptTitle ++ "*\nIssue: " ++ ai_issue
       ++ "\nFix: " ++ pyStrOf ai_fix),
     slackSection action_line,
     Json.obj [("type", Json.str "context"),
               ("elements", Json.arr [Json.obj [("type", Json.str "mrkdwn"),
                 ("text", Json.str ("⏰ " ++ nowShort ++ " | :robot_face: *Ollama K8s Admin AI*"))]])],
     Json.obj [("type", Json.str "divider")]]
  let blocks2 :=
    match validation_result with
    | some v =>
        if v ≠ "" then
          listInsertAt 4 (slackSection "🔍 *Validation Result:* ``````") blocks
        else blocks
    | none => blocks
  pure (Json.arr blocks2)

/-- The environment of one `/alerts` request: results of the external,
blocking collaborator calls and the clock readings. -/
structure HandlerEnv where
  ollamaResult : Except String String
  ghState : GithubState
  timestamp : String
  imageCheckFn : Json → Bool × String
  nowShort : String
  currentManifest : Option String

/-- The `if instructions:` processing block of `handle_alert` (logging
`.get`s, optional image validation, optional PR creation); yields
`(pr_url, validation_result)`.  `validate_image_exists` catches every
internal exception and always returns a pair, which is why it enters the
model as the total function `imageCheckFn`. -/
def processInstructions (env : HandlerEnv) (pod_name : Json) (instructions : Json)
    (rca : String) : Py (Option String × Option String) := do
  if pyTruthy instructions then do
    let _pt ← pyDictGet instructions "problem_type" Json.null
    let _rq ← pyDictGet instructions "requires_pr" Json.null
    let chs ← pyDictGet instructions "changes" (Json.arr [])
    let _n ← pyLen chs
    let items ← pyIter chs
    let _ ← items.mapM (fun c => do
      let _t ← pyDictGet c "type" Json.null
      let _d ← pyDictGet c "description" Json.null
      pure ())
    let vr ← pyDictGet instructions "validation_required" Json.null
    let validation_result ←
      if pyTruthy vr then do
        let vt ← pyDictGet instructions "validation_type" Json.null
        if vt = Json.str "image_check" then do
          let vd ← pyDictGet instructions "validation_data" (Json.obj [])
          let image_name ← pyDictGet vd "image" Json.null
          if pyTruthy image_name then
            pure (some ("Image validation: " ++ (env.imageCheckFn image_name).2))
          else pure (none : Option String)
        else pure none
      else pure none
    let rq ← pyDictGet instructions "requires_pr" Json.null
    let chs2 ← pyDictGet instructions "changes" Json.null
    let pr_url ←
      if pyTruthy rq && pyTruthy chs2 then
        pure (create_fix_pr env.ghState pod_name instructions rca env.timestamp).1
      else pure (none : Option String)
    pure (pr_url, validation_result)
  else pure (none, none)

/-- `handle_alert` from the parsed request body onward.  The prompt text
sent to the model is external-facing and does not influence control
flow, so it is not reproduced; the Slack post sits in its own
`try/except` and cannot influence the response. -/
def handle_alert (env : HandlerEnv) (data : Json) : Py (Json × Nat) := do
  let alerts ← pyDictGet data "alerts" (Json.arr [])
  if ¬ pyTruthy alerts then
    pure (Json.obj [("status", Json.str "no alerts received")], 400)
  else do
    let alertList ← pyIter alerts
    let formatted ← alertList.mapM format_alert
    let _alert_summary := String.intercalate "\n---\n" formatted
    let a0 ← pySubscrNat alerts 0
    let labels0 ← pyDictGet a0 "labels" (Json.obj [])
    let pod_name ← pyDictGet labels0 "pod" (Json.str "unknown")
    let _manifest_context :=
      match env.currentManifest with
      | some _ => "\n\nCurrent Manifest:\n``````"
      | none => ""
    let rcaInstr :=
      match env.ollamaResult with
      | Except.ok t => (t, parse_ollama_instructions t)
      | Except.error e => ("⚠️ Ollama request failed: " ++ e, Json.null)
    let rca := rcaInstr.1
    let instructions := rcaInstr.2
    let pv ← processInstructions env pod_name instructions rca
    let _blocks ← compose_slack_alert_blocks alerts instructions rca pv.1 pv.2 env.nowShort
    let ptField ←
      if pyTruthy instructions then pyDictGet instructions "problem_type" Json.null
      else pure Json.null
    pure (Json.obj
      [("status", Json.str "ok"),
       ("pod_name", pod_name),
       ("analysis_completed", Json.bool (decide (instructions ≠ Json.null))),
       ("pr_created", Json.bool pv.1.isSome),
       ("pr_url", match pv.1 with | some u => Json.str u | none => Json.null),
       ("problem_type", ptField)], 200)

/- ---------------------------------------------------------------------
Helper lemmas.
--------------------------------------------------------------------- -/

theorem pyStrOf_str (s : String) : pyStrOf (Json.str s) = s := rfl

theorem pyDictGet_obj (fs : List (String × Json)) (k : String) (d : Json) :
    pyDictGet (Json.obj fs) k d = Except.ok ((Json.lookup.fieldsGet fs k).getD d) := rfl

theorem pyDictGet_ok_isObj {j : Json} {k : String} {d v : Json}
    (h : pyDictGet j k d = Except.ok v) : j.isObj = true := by
  cases j <;> simp_all [pyDictGet, Json.isObj]

theorem listStarts_append (a b : List Char) : listStarts (a ++ b) a = true := by
  induction a with
  | nil => cases b <;> rfl
  | cons c cs ih => simpa [listStarts] using ih

theorem strToList_append (a b : String) : (a ++ b).toList = a.toList ++ b.toList := by
  cases a; cases b; rfl

theorem strStarts_append (a b : String) : strStarts (a ++ b) a = true := by
  simpa [strStarts, strToList_append] using listStarts_append a.toList b.toList

theorem fieldsGet_setFields_self (fs : List (String × Json)) (k : String) (v : Json) :
    Json.lookup.fieldsGet (Json.setFields fs k v) k = some v := by
  induction fs with
  | nil => simp [Json.setFields, Json.lookup.fieldsGet]
  | cons kv rest ih =>
      obtain ⟨k', v'⟩ := kv
      by_cases hk : k' = k
      · simp [Json.setFields, Json.lookup.fieldsGet, hk]
      · simp [Json.setFields, Json.lookup.fieldsGet, hk, ih]

theorem fieldsGet_setFields_ne (fs : List (String × Json)) (k k' : String) (v : Json)
    (h : k ≠ k') :
    Json.lookup.fieldsGet (Json.setFields fs k v) k' = Json.lookup.fieldsGet fs k' := by
  induction fs with
  | nil => simp [Json.setFields, Json.lookup.fieldsGet, h]
  | cons kv rest ih =>
      obtain ⟨k1, v1⟩ := kv
      by_cases hk : k1 = k
      · subst hk
        simp [Json.setFields, Json.lookup.fieldsGet, h]
      · simp [Json.setFields, Json.lookup.fieldsGet, hk, ih]

theorem setFields_self (fs : List (String × Json)) (k : String) (v : Json)
    (h : Json.lookup.fieldsGet fs k = some v) : Json.setFields fs k v = fs := by
  induction fs with
  | nil => simp [Json.lookup.fieldsGet] at h
  | cons kv rest ih =>
      obtain ⟨k', v'⟩ := kv
      by_cases hk : k' = k
      · have hv : v' = v := by simpa [Json.lookup.fieldsGet, hk] using h
        simp [Json.setFields, hk, hv]
      · simp only [Json.lookup.fieldsGet, if_neg hk] at h
        simp [Json.setFields, hk, ih h]

theorem setFields_setFields (fs : List (String × Json)) (k : String) (a b : Json) :
    Json.setFields (Json.setFields fs k a) k b = Json.setFields fs k b := by
  induction fs with
  | nil => simp [Json.setFields]
  | cons kv rest ih =>
      obtain ⟨k', v'⟩ := kv
      by_cases hk : k' = k
      · simp [Json.setFields, hk]
      · simp [Json.setFields, hk, ih]

theorem list_set_getD_self {α : Type} (l : List α) (i : Nat) (d : α) (h : i < l.length) :
    l.set i (l.getD i d) = l := by
  induction l generalizing i with
  | nil => simp at h
  | cons x xs ih =>
      cases i with
      | zero => simp
      | succ n =>
          simp only [List.length_cons, Nat.succ_lt_succ_iff] at h
          show x :: xs.set n (xs.getD n d) = x :: xs
          rw [ih n h]

theorem list_set_get?_ne {α : Type} (l : List α) (i j : Nat) (a : α) (h : j ≠ i) :
    (l.set i a).get? j = l.get? j := by
  induction l generalizing i j with
  | nil => simp
  | cons x xs ih =>
      cases i with
      | zero =>
          cases j with
          | zero => exact absurd rfl h
          | succ m => simp
      | succ n =>
          cases j with
          | zero => simp
          | succ m =>
              simp only [List.set, List.get?]
              exact ih n m (fun he => h (by rw [he]))

theorem py_bind_ok {α β : Type} (a : α) (f : α → Py β) :
    (Except.ok a : Py α) >>= f = f a := rfl

theorem py_bind_error {α β : Type} (e : PyErr) (f : α → Py β) :
    (Except.error e : Py α) >>= f = Except.error e := rfl

/-- A one-container Pod document used by the concrete runs below. -/
def podDoc : Json :=
  Json.obj [("kind", Json.str "Pod"), ("metadata", Json.obj [("name", Json.str "p")]),
            ("spec", Json.obj [("containers", Json.arr [Json.obj [("name", Json.str "c")]])])]

/- ---------------------------------------------------------------------
C1.
--------------------------------------------------------------------- -/

/-- C1: for every input text, `parse_ollama_instructions` never raises to
its caller — with the exception semantics made explicit, `parse_checked`
always yields a value (a remediation instruction or the explicit
absence), and the heuristic fallback body itself cannot fail: it always
returns `Except.ok` of the fallback instruction. -/
theorem C1_parser_never_raises (s : String) :
    (∃ j, parse_checked s = Except.ok j) ∧
      extractFallbackRun s = Except.ok (extract_fallback_instructions s) := by
  constructor
  · unfold parse_checked
    cases h : parseTryBody s with
    | ok j => exact ⟨j, rfl⟩
    | error e => cases e <;> exact ⟨_, rfl⟩
  · rfl

/- ---------------------------------------------------------------------
C2.
--------------------------------------------------------------------- -/

/-- C2 counterexample: on the input `{"a": 1}` the structural-parse
success path returns the parsed object as-is; it is a non-absent
instruction that contains neither `problem_type` nor `requires_pr`, so
it fails `validate_instructions_structure` — refuting the claim that
every non-absent parser result is structurally valid. -/
theorem C2_counterexample :
    parse_ollama_instructions "\x7b\"a\": 1\x7d" = Json.obj [("a", Json.num 1)] ∧
      validate_instructions_structure (Json.obj [("a", Json.num 1)]) = false := by
  constructor
  · rfl
  · rfl

/-- C2 (amended): every instruction produced by the heuristic fallback
path is structurally valid (it always carries `problem_type` and
`requires_pr`); instructions returned by the successful structural-parse
path are returned as-is and carry no such guarantee. -/
theorem C2_fallback_structurally_valid (s : String) :
    validate_instructions_structure (extract_fallback_instructions s) = true := by
  unfold extract_fallback_instructions extractFallbackRun
  dsimp only
  split
  · rfl
  · split
    · rfl
    · rfl

/- ---------------------------------------------------------------------
C5.
--------------------------------------------------------------------- -/

theorem imageColonGuard_colon (v1 : Json) :
    ∃ s, imageColonGuard v1 = Json.str s ∧ strContainsSub s ":" = true := by
  cases v1 with
  | str s =>
      by_cases h : strContainsSub s ":" = true
      · exact ⟨s, by simp [imageColonGuard, h], h⟩
      · refine ⟨"nginx:latest", by simp [imageColonGuard, h], by decide⟩
  | null => exact ⟨"nginx:latest", rfl, by decide⟩
  | bool b => exact ⟨"nginx:latest", rfl, by decide⟩
  | num n => exact ⟨"nginx:latest", rfl, by decide⟩
  | arr xs => exact ⟨"nginx:latest", rfl, by decide⟩
  | obj fs => exact ⟨"nginx:latest", rfl, by decide⟩

/-- A map value of an `update_image` op containing none of the
recognised key combinations. -/
def noRecognizedImageKeys (fs : List (String × Json)) : Bool :=
  (Json.lookup.fieldsGet fs "image").isNone
    && (Json.lookup.fieldsGet fs "name").isNone
    && !((Json.lookup.fieldsGet fs "repository").isSome
          && (Json.lookup.fieldsGet fs "tag").isSome)
    && !((Json.lookup.fieldsGet fs "repo").isSome
          && (Json.lookup.fieldsGet fs "tag").isSome)

/-- C5: an `update_image` value that is a map with none of the
recognised keys resolves to the fixed fallback `"nginx:latest"`; every
resolved image is a string containing a colon; and the `update_image`
branch of the change loop sets the target container's image to exactly
this resolution. -/
theorem C5_update_image_resolution :
    (∀ fs, noRecognizedImageKeys fs = true →
        resolveImageValue (Json.obj fs) = Json.str "nginx:latest") ∧
    (∀ v, ∃ s, resolveImageValue v = Json.str s ∧ strContainsSub s ":" = true) ∧
    (∀ (cf : List (String × Json)) (v : Json),
        applyOneChange [Json.obj cf]
            (Json.obj [("type", Json.str "update_image"), ("path", Json.arr [Json.str "0"]),
                       ("value", v)])
          = Except.ok [Json.obj (Json.setFields cf "image" (resolveImageValue v))]) := by
  refine ⟨?_, ?_, ?_⟩
  · intro fs h
    simp only [noRecognizedImageKeys, Bool.and_eq_true, Bool.not_eq_true,
      Option.isNone_iff_eq_none] at h
    obtain ⟨⟨⟨hi, hn⟩, hrt⟩, hro⟩ := h
    have hrt2 : ¬((Json.lookup.fieldsGet fs "repository").isSome = true
        ∧ (Json.lookup.fieldsGet fs "tag").isSome = true) := by
      intro hc
      rw [hc.1, hc.2] at hrt
      simp at hrt
    have hro2 : ¬((Json.lookup.fieldsGet fs "repo").isSome = true
        ∧ (Json.lookup.fieldsGet fs "tag").isSome = true) := by
      intro hc
      rw [hc.1, hc.2] at hro
      simp at hro
    simp [resolveImageValue, hi, hn, hrt2, hro2, imageColonGuard]
  · intro v
    exact imageColonGuard_colon _
  · intro cf v
    rfl

/-- C5 witness: the theorem instantiated at the concrete value
`{"foo": 1}` and a one-field container. -/
theorem C5_update_image_resolution_witness :
    resolveImageValue (Json.obj [("foo", Json.num 1)]) = Json.str "nginx:latest" ∧
      applyOneChange [Json.obj [("name", Json.str "c")]]
          (Json.obj [("type", Json.str "update_image"), ("path", Json.arr [Json.str "0"]),
                     ("value", Json.obj [("foo", Json.num 1)])])
        = Except.ok [Json.obj [("name", Json.str "c"), ("image", Json.str "nginx:latest")]] := by
  constructor
  · exact C5_update_image_resolution.1 [("foo", Json.num 1)] (by decide)
  · have h := C5_update_image_resolution.2.2 [("name", Json.str "c")]
      (Json.obj [("foo", Json.num 1)])
    simpa using h

/- ---------------------------------------------------------------------
C9.
--------------------------------------------------------------------- -/

/-- An `add_env_var` ChangeOp targeting container 0. -/
def envChangeOp (v : Json) : Json :=
  Json.obj [("type", Json.str "add_env_var"), ("path", Json.arr [Json.str "0"]),
            ("value", v)]

/-- The validity condition of `add_env_var`: a map with both `name` and
`value` fields. -/
def validEnvValue (v : Json) : Bool :=
  match v with
  | Json.obj fs =>
      (Json.lookup.fieldsGet fs "name").isSome && (Json.lookup.fieldsGet fs "value").isSome
  | _ => false

/-- The `add_env_var` branch of the change loop in closed form. -/
theorem applyOneChange_env_eval (cf : List (String × Json)) (v : Json) :
    applyOneChange [Json.obj cf] (envChangeOp v) =
      (let container1 :=
        if (Json.lookup.fieldsGet cf "env").isSome then Json.obj cf
        else Json.obj (Json.setFields cf "env" (Json.arr []));
      if validEnvValue v then
        (pySubscrStr container1 "env") >>= fun envList =>
        (pyAppend envList v) >>= fun envList2 =>
        Except.ok [container1.setKey "env" envList2]
      else Except.ok [container1]) := by
  cases v <;> rfl

/-- C9 counterexample: an `add_env_var` op whose value is the plain
string `"oops"` (not a map) is rejected — yet the targeted container is
*not* left unchanged: an empty `env` list is created on it before the
validity check, so its `env` field appears. -/
theorem C9_counterexample :
    applyOneChange [Json.obj [("name", Json.str "c")]]
        (envChangeOp (Json.str "oops"))
      = Except.ok [Json.obj [("name", Json.str "c"), ("env", Json.arr [])]] := rfl

/-- C9 (amended): an invalid `add_env_var` appends nothing, but before
the validity check the op ensures the container has an `env` field,
creating an empty list when absent — so the container is unchanged only
when it already had an `env` field; a valid `add_env_var` appends the
map to the (created-if-absent) environment list. -/
theorem C9_add_env_var (cf : List (String × Json)) (v : Json) :
    (validEnvValue v = false → (Json.lookup.fieldsGet cf "env").isSome = true →
        applyOneChange [Json.obj cf] (envChangeOp v) = Except.ok [Json.obj cf]) ∧
    (validEnvValue v = false → Json.lookup.fieldsGet cf "env" = none →
        applyOneChange [Json.obj cf] (envChangeOp v)
          = Except.ok [Json.obj (Json.setFields cf "env" (Json.arr []))]) ∧
    (∀ e, validEnvValue v = true → Json.lookup.fieldsGet cf "env" = some (Json.arr e) →
        applyOneChange [Json.obj cf] (envChangeOp v)
          = Except.ok [Json.obj (Json.setFields cf "env" (Json.arr (e ++ [v])))]) ∧
    (validEnvValue v = true → Json.lookup.fieldsGet cf "env" = none →
        applyOneChange [Json.obj cf] (envChangeOp v)
          = Except.ok [Json.obj (Json.setFields cf "env" (Json.arr [v]))]) := by
  refine ⟨?_, ?_, ?_, ?_⟩
  · intro hv he
    rw [applyOneChange_env_eval]
    simp only [he, if_true, hv]
    rfl
  · intro hv he
    rw [applyOneChange_env_eval]
    simp only [he, Option.isSome_none, hv]
    rfl
  · intro e hv he
    rw [applyOneChange_env_eval]
    simp only [he, Option.isSome_some, if_true, hv, pySubscrStr, Json.lookup.fieldsGet]
    simp [pySubscrStr, he, pyAppend, py_bind_ok, Json.setKey]
  · intro hv he
    rw [applyOneChange_env_eval]
    simp only [he, Option.isSome_none, hv]
    simp [pySubscrStr, fieldsGet_setFields_self, pyAppend, py_bind_ok, Json.setKey,
      setFields_setFields]

/-- C9 witness: the amended theorem at a container without `env` and the
invalid value `"oops"`, and at a valid `{"name": ..., "value": ...}`
map. -/
theorem C9_add_env_var_witness :
    applyOneChange [Json.obj [("name", Json.str "c")]]
        (envChangeOp (Json.str "oops"))
      = Except.ok [Json.obj [("name", Json.str "c"), ("env", Json.arr [])]] ∧
    applyOneChange [Json.obj [("name", Json.str "c")]]
        (envChangeOp (Json.obj [("name", Json.str "FOO"), ("value", Json.str "1")]))
      = Except.ok [Json.obj [("name", Json.str "c"),
          ("env", Json.arr [Json.obj [("name", Json.str "FOO"), ("value", Json.str "1")]])]] := by
  constructor
  · have h := (C9_add_env_var [("name", Json.str "c")] (Json.str "oops")).2.1
      (by decide) (by decide)
    simpa using h
  · have h := (C9_add_env_var [("name", Json.str "c")]
      (Json.obj [("name", Json.str "FOO"), ("value", Json.str "1")])).2.2.2
      (by decide) (by decide)
    simpa using h

/- ---------------------------------------------------------------------
C10.
--------------------------------------------------------------------- -/

/-- C10: whenever some open review request against the base branch has a
head starting with `"fix/" ++ pod` — including one made for a different
pod of which `pod` is a proper prefix — `create_fix_pr` returns that
request's URL and leaves the store untouched (no branch is created),
provided the preparation steps (manifest fetch and patch) succeed. -/
theorem C10_prefix_collision (st : GithubState) (p : String) (ins : Json)
    (rca t : String) (prep : String × Json × List Json) (u : String)
    (hprep : createFixPrepare st ins = Except.ok (some prep))
    (hex : pr_already_exists st ("fix/" ++ p) = some u) :
    create_fix_pr st (Json.str p) ins rca t = (some u, st) := by
  obtain ⟨mp, chs, fx⟩ := prep
  unfold create_fix_pr createFixRun
  rw [hprep, py_bind_ok]
  simp only [pyStrOf_str, hex]

/-- C10 witness: a store holding an open review request with head
`fix/api-2-20250910` suppresses proposal creation for the distinct pod
`api` and returns the existing URL. -/
theorem C10_prefix_collision_witness :
    create_fix_pr
        ⟨[⟨"fix/api-2-20250910", "main", "urlX", true⟩], ["fix/api-2-20250910"],
         [("app/failing-app.yaml", [podDoc])], "sha0", [], 5⟩
        (Json.str "api")
        (Json.obj [("problem_type", Json.str "other"),
          ("changes", Json.arr [Json.obj [("type", Json.str "update_image"),
            ("path", Json.arr [Json.str "0"]), ("value", Json.str "nginx:1.21")]])])
        "" "20250911"
      = (some "urlX",
         ⟨[⟨"fix/api-2-20250910", "main", "urlX", true⟩], ["fix/api-2-20250910"],
          [("app/failing-app.yaml", [podDoc])], "sha0", [], 5⟩) := by
  apply C10_prefix_collision _ _ _ _ _
    ("app/failing-app.yaml",
      Json.arr [Json.obj [("type", Json.str "update_image"),
        ("path", Json.arr [Json.str "0"]), ("value", Json.str "nginx:1.21")]],
      [Json.obj [("kind", Json.str "Pod"), ("metadata", Json.obj [("name", Json.str "p")]),
        ("spec", Json.obj [("containers",
          Json.arr [Json.obj [("name", Json.str "c"), ("image", Json.str "nginx:1.21")]])])]])
  · rfl
  · rfl

/- ---------------------------------------------------------------------
C8.
--------------------------------------------------------------------- -/

/-- A Deployment whose kind-specific walk ends at an *empty* container
list while the generic fallback path `spec.containers` holds a
container. -/
def emptyKindPathDoc : Json :=
  Json.obj [("kind", Json.str "Deployment"),
            ("spec", Json.obj
              [("template", Json.obj [("spec", Json.obj [("containers", Json.arr [])])]),
               ("containers", Json.arr [Json.obj [("name", Json.str "c")]])])]

/-- C8 counterexample: on `emptyKindPathDoc` the locator returns the
*empty* list found by the kind-specific path — a non-absent result
although that path yielded nothing and without trying the fallbacks,
although the fallback path `spec.containers` walks to a non-empty list.
This refutes both "if the looked-up path yields nothing, it tries the
fallback paths" and "absent exactly when no path yields a non-empty
container list". -/
theorem C8_counterexample :
    find_containers_in_manifest emptyKindPathDoc
        = Except.ok (some ([], ["spec", "template", "spec", "containers"])) ∧
      walkPath emptyKindPathDoc ["spec", "containers"]
        = Except.ok (Json.arr [Json.obj [("name", Json.str "c")]]) := by
  constructor
  · rfl
  · rfl

theorem fallbackScan_none {m : Json} :
    ∀ ps, fallbackScan m ps = Except.ok none →
      ∀ p ∈ ps, ∀ xs, walkPath m p = Except.ok (Json.arr xs) → xs = [] := by
  intro ps
  induction ps with
  | nil =>
      intro _ p hp
      simp at hp
  | cons q qs ih =>
      intro h p hp xs hw
      cases hwq : walkPath m q with
      | error e =>
          rw [fallbackScan, hwq, py_bind_error] at h
          simp at h
      | ok w =>
          rw [fallbackScan, hwq, py_bind_ok] at h
          rcases List.mem_cons.mp hp with rfl | hp2
          · rw [hwq] at hw
            have hwxs : w = Json.arr xs := by
              injection hw
            subst hwxs
            cases xs with
            | nil => rfl
            | cons x rest => simp at h
          · cases w with
            | arr ws =>
                cases ws with
                | nil => exact ih h p hp2 xs hw
                | cons x rest => simp at h
            | null => exact ih h p hp2 xs hw
            | bool b => exact ih h p hp2 xs hw
            | num n => exact ih h p hp2 xs hw
            | str s => exact ih h p hp2 xs hw
            | obj fs => exact ih h p hp2 xs hw

theorem find_none_fallbackScan {m : Json}
    (h : find_containers_in_manifest m = Except.ok none) :
    fallbackScan m fallback_paths = Except.ok none := by
  unfold find_containers_in_manifest at h
  cases hk : pyDictGet m "kind" (Json.str "") with
  | error e => rw [hk, py_bind_error] at h; simp at h
  | ok kj =>
      rw [hk, py_bind_ok] at h
      cases hl : pyLower kj with
      | error e => rw [hl, py_bind_error] at h; simp at h
      | ok kind =>
          rw [hl, py_bind_ok] at h
          cases hcp : container_paths kind with
          | none => rw [hcp] at h; exact h
          | some path =>
              rw [hcp] at h
              dsimp only at h
              cases hw : walkPath m path with
              | error e => rw [hw, py_bind_error] at h; simp at h
              | ok w =>
                  rw [hw, py_bind_ok] at h
                  cases w with
                  | arr xs => simp at h
                  | null => exact h
                  | bool b => exact h
                  | num n => exact h
                  | str s => exact h
                  | obj fs => exact h

/-- C8 (amended): the kind-specific path wins whenever its walk ends at
*any* list — the empty list included, in which case the fallbacks are
not consulted; and when the locator returns the absent result, no
fallback path walks to a non-empty list (the fallbacks only return
non-empty lists). -/
theorem C8_locator_behaviour :
    (∀ (m kj : Json) (kind : String) (kp : List String) (xs : List Json),
        pyDictGet m "kind" (Json.str "") = Except.ok kj →
        pyLower kj = Except.ok kind →
        container_paths kind = some kp →
        walkPath m kp = Except.ok (Json.arr xs) →
        find_containers_in_manifest m = Except.ok (some (xs, kp))) ∧
    (∀ m, find_containers_in_manifest m = Except.ok none →
        ∀ p ∈ fallback_paths, ∀ xs, walkPath m p = Except.ok (Json.arr xs) → xs = []) := by
  constructor
  · intro m kj kind kp xs hk hl hcp hw
    unfold find_containers_in_manifest
    rw [hk, py_bind_ok, hl, py_bind_ok, hcp]
    dsimp only
    rw [hw, py_bind_ok]
  · intro m h
    exact fallbackScan_none fallback_paths (find_none_fallbackScan h)

/-- C8 witness: the amended theorem's kind-path branch at a concrete Pod
document. -/
theorem C8_locator_behaviour_witness :
    find_containers_in_manifest podDoc
      = Except.ok (some ([Json.obj [("name", Json.str "c")]], ["spec", "containers"])) := by
  exact C8_locator_behaviour.1 podDoc (Json.str "Pod") "pod" ["spec", "containers"]
    [Json.obj [("name", Json.str "c")]] rfl rfl rfl rfl

/- ---------------------------------------------------------------------
C6.
--------------------------------------------------------------------- -/

theorem setAtPath_walkPath (p : List String) : ∀ (j v : Json),
    walkPath j p = Except.ok v → pyTruthy v = true → setAtPath j p v = j := by
  induction p with
  | nil =>
      intro j v hw _
      have hv : j = v := by simpa [walkPath] using hw
      subst hv
      simp [setAtPath]
  | cons k ks ih =>
      intro j v hw ht
      cases j with
      | obj fs =>
          rw [walkPath, pyDictGet_obj, py_bind_ok] at hw
          by_cases ht1 : pyTruthy ((Json.lookup.fieldsGet fs k).getD (Json.obj [])) = true
          · rw [if_pos ht1] at hw
            cases hfg : Json.lookup.fieldsGet fs k with
            | none =>
                rw [hfg] at ht1
                simp [pyTruthy] at ht1
            | some v1 =>
                rw [hfg] at hw
                have hset := ih v1 v (by simpa using hw) ht
                show Json.obj (Json.setFields fs k
                  (setAtPath ((Json.lookup.fieldsGet fs k).getD (Json.obj [])) ks v)) = Json.obj fs
                rw [hfg]
                simp only [Option.getD_some]
                rw [hset, setFields_self fs k v1 hfg]
          · rw [if_neg ht1] at hw
            have hv : v = (Json.lookup.fieldsGet fs k).getD (Json.obj []) := by
              have := hw
              injection this with h2
              exact h2.symm
            rw [hv] at ht
            exact absurd ht ht1
      | null => simp [walkPath, pyDictGet, py_bind_error] at hw
      | bool b => simp [walkPath, pyDictGet, py_bind_error] at hw
      | num n => simp [walkPath, pyDictGet, py_bind_error] at hw
      | str s => simp [walkPath, pyDictGet, py_bind_error] at hw
      | arr xs => simp [walkPath, pyDictGet, py_bind_error] at hw

theorem fallbackScan_some {m : Json} : ∀ (ps : List (List String)) (cs : List Json)
    (p : List String), fallbackScan m ps = Except.ok (some (cs, p)) →
    walkPath m p = Except.ok (Json.arr cs) ∧ cs ≠ [] := by
  intro ps
  induction ps with
  | nil =>
      intro cs p h
      simp [fallbackScan] at h
  | cons q qs ih =>
      intro cs p h
      cases hwq : walkPath m q with
      | error e =>
          rw [fallbackScan, hwq, py_bind_error] at h
          simp at h
      | ok w =>
          rw [fallbackScan, hwq, py_bind_ok] at h
          cases w with
          | arr ws =>
              cases ws with
              | nil => exact ih cs p h
              | cons x rest =>
                  have h3 : x :: rest = cs ∧ q = p := by
                    simpa [Prod.ext_iff] using h
                  obtain ⟨hcs, hp⟩ := h3
                  subst hcs
                  subst hp
                  exact ⟨hwq, by simp⟩
          | null => exact ih cs p h
          | bool b => exact ih cs p h
          | num n => exact ih cs p h
          | str s => exact ih cs p h
          | obj fs => exact ih cs p h

theorem find_some_walkPath {m : Json} {cs : List Json} {p : List String}
    (h : find_containers_in_manifest m = Except.ok (some (cs, p))) :
    walkPath m p = Except.ok (Json.arr cs) := by
  unfold find_containers_in_manifest at h
  cases hk : pyDictGet m "kind" (Json.str "") with
  | error e => rw [hk, py_bind_error] at h; simp at h
  | ok kj =>
      rw [hk, py_bind_ok] at h
      cases hl : pyLower kj with
      | error e => rw [hl, py_bind_error] at h; simp at h
      | ok kind =>
          rw [hl, py_bind_ok] at h
          cases hcp : container_paths kind with
          | none =>
              rw [hcp] at h
              exact (fallbackScan_some _ cs p h).1
          | some path =>
              rw [hcp] at h
              dsimp only at h
              cases hw : walkPath m path with
              | error e => rw [hw, py_bind_error] at h; simp at h
              | ok w =>
                  rw [hw, py_bind_ok] at h
                  cases w with
                  | arr xs =>
                      have h3 : xs = cs ∧ path = p := by simpa [Prod.ext_iff] using h
                      obtain ⟨hcs, hp⟩ := h3
                      subst hcs; subst hp
                      exact hw
                  | null => exact (fallbackScan_some _ cs p h).1
                  | bool b => exact (fallbackScan_some _ cs p h).1
                  | num n => exact (fallbackScan_some _ cs p h).1
                  | str s => exact (fallbackScan_some _ cs p h).1
                  | obj fs => exact (fallbackScan_some _ cs p h).1

theorem selectTargetLoop_lt (name : String) : ∀ (l : List Json) (i t : Nat),
    selectTargetLoop name l i = Except.ok t → i ≤ t ∧ t - i < l.length := by
  intro l
  induction l with
  | nil =>
      intro i t h
      simp [selectTargetLoop] at h
  | cons m rest ih =>
      intro i t h
      cases hmd : pyDictGet m "metadata" (Json.obj []) with
      | error e => rw [selectTargetLoop, hmd, py_bind_error] at h; simp at h
      | ok md =>
          rw [selectTargetLoop, hmd, py_bind_ok] at h
          cases hn : pyDictGet md "name" Json.null with
          | error e => rw [hn, py_bind_error] at h; simp at h
          | ok n =>
              rw [hn, py_bind_ok] at h
              by_cases heq : n = Json.str name
              · rw [if_pos heq] at h
                have : i = t := by simpa using h
                subst this
                exact ⟨Nat.le_refl i, by simp⟩
              · rw [if_neg heq] at h
                obtain ⟨h1, h2⟩ := ih (i + 1) t h
                constructor
                · omega
                · simp only [List.length_cons]
                  omega

theorem applySetupTail_spec {docs : List Json} {changes : Json} {ti2 ti : Nat}
    {cs : List Json} {cpath : List String}
    (h : applySetupTail docs changes ti2 = Except.ok (ti, cs, cpath)) :
    ti = ti2 ∧ cs ≠ [] ∧
      find_containers_in_manifest (docs.getD ti2 Json.null)
        = Except.ok (some (cs, cpath)) := by
  simp only [applySetupTail] at h
  cases hk : pyDictGet (docs.getD ti2 Json.null) "kind" (Json.str "Unknown") with
  | error e => rw [hk, py_bind_error] at h; simp at h
  | ok k1 =>
      rw [hk, py_bind_ok] at h
      cases hmd : pyDictGet (docs.getD ti2 Json.null) "metadata" (Json.obj []) with
      | error e => rw [hmd, py_bind_error] at h; simp at h
      | ok md =>
          rw [hmd, py_bind_ok] at h
          cases hnm : pyDictGet md "name" (Json.str "unknown") with
          | error e => rw [hnm, py_bind_error] at h; simp at h
          | ok nm =>
              rw [hnm, py_bind_ok] at h
              cases hln : pyLen changes with
              | error e => rw [hln, py_bind_error] at h; simp at h
              | ok n =>
                  rw [hln, py_bind_ok] at h
                  cases hf : find_containers_in_manifest (docs.getD ti2 Json.null) with
                  | error e => rw [hf, py_bind_error] at h; simp at h
                  | ok found =>
                      rw [hf, py_bind_ok] at h
                      cases found with
                      | none => simp at h
                      | some csp =>
                          obtain ⟨cs2, cpath2⟩ := csp
                          by_cases hcse : cs2.isEmpty = true
                          · simp [hcse] at h
                          · simp only [hcse, Bool.false_eq_true, if_false] at h
                            have h3 : ti2 = ti ∧ cs2 = cs ∧ cpath2 = cpath := by
                              simpa [Prod.ext_iff] using h
                            obtain ⟨e1, e2, e3⟩ := h3
                            subst e1; subst e2; subst e3
                            refine ⟨rfl, ?_, rfl⟩
                            intro hnil
                            rw [hnil] at hcse
                            simp at hcse

theorem applySetup_spec {docs : List Json} {changes : Json} {target : Option String}
    {ti : Nat} {cs : List Json} {cpath : List String}
    (h : applySetup docs changes target = Except.ok (ti, cs, cpath)) :
    ti < docs.length ∧ cs ≠ [] ∧
      find_containers_in_manifest (docs.getD ti Json.null)
        = Except.ok (some (cs, cpath)) := by
  unfold applySetup at h
  by_cases hne : docs.isEmpty = true
  · rw [if_pos hne] at h
    simp at h
  · rw [if_neg hne] at h
    have hlen : 0 < docs.length := by
      cases docs with
      | nil => simp at hne
      | cons d ds => simp
    cases target with
    | none =>
        rw [show ((match (none : Option String) with
            | some name => selectTargetLoop name docs 0
            | none => Except.ok 0) : Py Nat) = Except.ok 0 from rfl, py_bind_ok] at h
        obtain ⟨hti, hcs, hf⟩ := applySetupTail_spec h
        subst hti
        exact ⟨hlen, hcs, hf⟩
    | some name =>
        rw [show ((match (some name : Option String) with
            | some name => selectTargetLoop name docs 0
            | none => Except.ok 0) : Py Nat) = selectTargetLoop name docs 0 from rfl] at h
        cases hsl : selectTargetLoop name docs 0 with
        | error e => rw [hsl, py_bind_error] at h; simp at h
        | ok t0 =>
            rw [hsl, py_bind_ok] at h
            obtain ⟨hti, hcs, hf⟩ := applySetupTail_spec h
            obtain ⟨hh1, hh2⟩ := selectTargetLoop_lt name docs 0 t0 hsl
            subst hti
            exact ⟨by omega, hcs, hf⟩

/-- C6: applying zero ChangeOps reproduces the document list exactly
(same count, kinds, names and container lists), and in general only the
selected target document is replaced — every other position of the
re-serialised list is the untouched original document. -/
theorem C6_untouched_documents :
    (∀ (docs : List Json) (target : Option String) (out : List Json),
        apply_manifest_changes docs (Json.arr []) target = Except.ok out → out = docs) ∧
    (∀ (docs : List Json) (changes : Json) (target : Option String)
        (ti : Nat) (cs : List Json) (cpath : List String) (out : List Json),
        applySetup docs changes target = Except.ok (ti, cs, cpath) →
        apply_manifest_changes docs changes target = Except.ok out →
        out.length = docs.length ∧ ∀ i, i ≠ ti → out.get? i = docs.get? i) := by
  constructor
  · intro docs target out h
    unfold apply_manifest_changes at h
    cases hs : applySetup docs (Json.arr []) target with
    | error e => rw [hs, py_bind_error] at h; simp at h
    | ok tcp =>
        obtain ⟨ti, cs, cpath⟩ := tcp
        rw [hs, py_bind_ok] at h
        obtain ⟨hti, hcs, hf⟩ := applySetup_spec hs
        have hw := find_some_walkPath hf
        have htr : pyTruthy (Json.arr cs) = true := by
          cases cs with
          | nil => exact absurd rfl hcs
          | cons x xs => simp [pyTruthy]
        have hsp := setAtPath_walkPath cpath (docs.getD ti Json.null) (Json.arr cs) hw htr
        simp only [pyIter, py_bind_ok, List.foldlM] at h
        have hout : docs.set ti (setAtPath (docs.getD ti Json.null) cpath (Json.arr cs)) = out := by
          simpa using h
        rw [hsp] at hout
        rw [list_set_getD_self docs ti Json.null hti] at hout
        exact hout.symm
  · intro docs changes target ti cs cpath out hs h
    unfold apply_manifest_changes at h
    rw [hs, py_bind_ok] at h
    dsimp only at h
    obtain ⟨hti, hcs, hf⟩ := applySetup_spec hs
    cases hit : pyIter changes with
    | error e => rw [hit, py_bind_error] at h; simp at h
    | ok items =>
        rw [hit, py_bind_ok] at h
        cases hfold : items.foldlM applyOneChange cs with
        | error e => rw [hfold, py_bind_error] at h; simp at h
        | ok cs2 =>
            rw [hfold, py_bind_ok] at h
            have hout : docs.set ti (setAtPath (docs.getD ti Json.null) cpath (Json.arr cs2))
                = out := by simpa using h
            rw [← hout]
            constructor
            · simp
            · intro i hi
              exact list_set_get?_ne docs ti i _ hi

/-- C6 witness: zero ChangeOps on a two-document manifest reproduce both
documents unchanged. -/
theorem C6_untouched_documents_witness :
    apply_manifest_changes [podDoc, Json.obj [("kind", Json.str "Service")]] (Json.arr []) none
      = Except.ok [podDoc, Json.obj [("kind", Json.str "Service")]] :=
  C6_untouched_documents.1 [podDoc, Json.obj [("kind", Json.str "Service")]] none
    [podDoc, Json.obj [("kind", Json.str "Service")]] rfl ▸ rfl

/- ---------------------------------------------------------------------
C3.
--------------------------------------------------------------------- -/

/-- C3 counterexample: a ChangeOp that is not a map (the bare string
`"x"`) makes `apply_manifest_changes` raise (`change.get` on a non-dict,
re-raised by the outer handler) instead of being skipped. -/
theorem C3_counterexample :
    apply_manifest_changes [podDoc] (Json.arr [Json.str "x"]) none
      = Except.error PyErr.attributeError := rfl

/-- Path values whose token access cannot fault: falsy values, strings,
or lists headed by a string. -/
def pathTokenSafe (p : Json) : Bool :=
  if pyTruthy p then
    match p with
    | Json.arr (Json.str _ :: _) => true
    | Json.str _ => true
    | _ => false
  else true

/-- A ChangeOp that is a map whose `path` field (when present and
truthy) is a string or a list headed by a string. -/
def changeOpSafe (op : Json) : Bool :=
  op.isObj && pathTokenSafe ((op.lookup "path").getD (Json.arr [Json.str "0"]))

/-- A container that is a map whose `env` field, when present, is a
list (so that a valid `add_env_var` can append to it). -/
def containerSafe (c : Json) : Bool :=
  c.isObj
    && (match c.lookup "env" with
        | none => true
        | some e => e.isArr)

theorem computeContainerIdx_go_safe (p : Json) (h : pathTokenSafe p = true) :
    ∃ n, computeContainerIdx.go p = Except.ok n := by
  unfold computeContainerIdx.go
  by_cases ht : pyTruthy p = true
  · rw [if_pos ht]
    unfold pathTokenSafe at h
    rw [if_pos ht] at h
    cases p with
    | arr xs =>
        cases xs with
        | nil => simp [pyTruthy] at ht
        | cons x rest =>
            cases x with
            | str s =>
                exact ⟨if s ≠ "" && s.toList.all Char.isDigit then digitsToNat s.toList
                    else 0,
                  (apply_ite (Except.ok : Nat → Py Nat)
                    ((s ≠ "" && s.toList.all Char.isDigit) = true)
                    (digitsToNat s.toList) 0).symm⟩
            | null => simp at h
            | bool b => simp at h
            | num n => simp at h
            | arr ys => simp at h
            | obj fs => simp at h
    | str s =>
        have hs : s ≠ "" := by simpa [pyTruthy] using ht
        cases hc : s.toList with
        | nil =>
            exfalso
            apply hs
            cases s with
            | mk l =>
                have hl : l = [] := hc
                subst hl
                rfl
        | cons c rest =>
            have hdata : s.data = c :: rest := hc
            have hsub : pySubscrNat (Json.str s) 0 = Except.ok (Json.str (String.mk [c])) := by
              simp [pySubscrNat, hdata]
            rw [hsub, py_bind_ok]
            exact ⟨if (String.mk [c]) ≠ "" && (String.mk [c]).toList.all Char.isDigit then
                digitsToNat (String.mk [c]).toList else 0,
              (apply_ite (Except.ok : Nat → Py Nat)
                (((String.mk [c]) ≠ "" && (String.mk [c]).toList.all Char.isDigit) = true)
                (digitsToNat (String.mk [c]).toList) 0).symm⟩
    | null => simp at h
    | bool b => simp at h
    | num n => simp at h
    | obj fs => simp at h
  · rw [if_neg ht]
    exact ⟨0, rfl⟩

theorem computeContainerIdx_safe (p : Json) (h : pathTokenSafe p = true) :
    ∃ n, computeContainerIdx p = Except.ok n := by
  obtain ⟨n, hn⟩ := computeContainerIdx_go_safe p h
  exact ⟨n, by unfold computeContainerIdx; rw [hn]⟩

theorem containerSafe_isObj {c : Json} (h : containerSafe c = true) : c.isObj = true := by
  unfold containerSafe at h
  simp only [Bool.and_eq_true] at h
  exact h.1

theorem containerSafe_setKey_ne (c : Json) (k : String) (v : Json)
    (hc : containerSafe c = true) (hk : k ≠ "env") :
    containerSafe (c.setKey k v) = true := by
  cases c with
  | obj fs =>
      unfold containerSafe at hc ⊢
      simp only [Json.setKey, Json.isObj, Bool.true_and] at hc ⊢
      have hfe : Json.lookup (Json.obj (Json.setFields fs k v)) "env"
          = Json.lookup (Json.obj fs) "env" := by
        show Json.lookup.fieldsGet (Json.setFields fs k v) "env"
          = Json.lookup.fieldsGet fs "env"
        exact fieldsGet_setFields_ne fs k "env" v hk
      rw [hfe]
      exact hc
  | null => simp [containerSafe, Json.isObj] at hc
  | bool b => simp [containerSafe, Json.isObj] at hc
  | num n => simp [containerSafe, Json.isObj] at hc
  | str s => simp [containerSafe, Json.isObj] at hc
  | arr xs => simp [containerSafe, Json.isObj] at hc

theorem containerSafe_setKey_env_arr (c : Json) (xs : List Json) (hc : c.isObj = true) :
    containerSafe (c.setKey "env" (Json.arr xs)) = true := by
  cases c with
  | obj fs =>
      unfold containerSafe
      simp only [Json.setKey, Json.isObj, Bool.true_and]
      have hfe : Json.lookup (Json.obj (Json.setFields fs "env" (Json.arr xs))) "env"
          = some (Json.arr xs) := by
        show Json.lookup.fieldsGet (Json.setFields fs "env" (Json.arr xs)) "env"
          = some (Json.arr xs)
        exact fieldsGet_setFields_self fs "env" (Json.arr xs)
      rw [hfe]
      simp [Json.isArr]
  | null => simp [Json.isObj] at hc
  | bool b => simp [Json.isObj] at hc
  | num n => simp [Json.isObj] at hc
  | str s => simp [Json.isObj] at hc
  | arr ys => simp [Json.isObj] at hc

theorem mem_of_get? {α : Type} : ∀ (l : List α) (n : Nat) (a : α),
    l.get? n = some a → a ∈ l := by
  intro l
  induction l with
  | nil => intro n a h; simp at h
  | cons x xs ih =>
      intro n a h
      cases n with
      | zero =>
          have : x = a := by simpa using h
          simp [this]
      | succ m =>
          have := ih m a (by simpa using h)
          simp [this]

theorem mem_set_cases {α : Type} : ∀ (l : List α) (i : Nat) (b x : α),
    x ∈ l.set i b → x ∈ l ∨ x = b := by
  intro l
  induction l with
  | nil => intro i b x h; simp at h
  | cons y ys ih =>
      intro i b x h
      cases i with
      | zero =>
          rcases List.mem_cons.mp h with rfl | hmem
          · exact Or.inr rfl
          · exact Or.inl (List.mem_cons.mpr (Or.inr hmem))
      | succ m =>
          rcases List.mem_cons.mp h with rfl | hmem
          · exact Or.inl (List.mem_cons.mpr (Or.inl rfl))
          · rcases ih m b x hmem with h1 | h2
            · exact Or.inl (List.mem_cons.mpr (Or.inr h1))
            · exact Or.inr h2

theorem applyOneChange_safe (cs : List Json) (op : Json)
    (hcs : ∀ c ∈ cs, containerSafe c = true) (hne : cs ≠ [])
    (hop : changeOpSafe op = true) :
    ∃ cs2, applyOneChange cs op = Except.ok cs2 ∧ cs2.length = cs.length ∧
      ∀ c ∈ cs2, containerSafe c = true := by
  cases op with
  | null => simp [changeOpSafe, Json.isObj] at hop
  | bool b => simp [changeOpSafe, Json.isObj] at hop
  | num n => simp [changeOpSafe, Json.isObj] at hop
  | str s => simp [changeOpSafe, Json.isObj] at hop
  | arr xs => simp [changeOpSafe, Json.isObj] at hop
  | obj ofs =>
      have hpath : pathTokenSafe ((Json.lookup.fieldsGet ofs "path").getD
          (Json.arr [Json.str "0"])) = true := by
        unfold changeOpSafe at hop
        simpa [Json.isObj, Json.lookup] using hop
      obtain ⟨idx0, hidx⟩ := computeContainerIdx_safe _ hpath
      unfold applyOneChange
      simp only [pyDictGet_obj, py_bind_ok]
      rw [hidx, py_bind_ok]
      have hlenpos : 0 < cs.length := by
        cases cs with
        | nil => exact absurd rfl hne
        | cons a l => simp
      have hlt : (if idx0 ≥ cs.length then 0 else idx0) < cs.length := by
        by_cases hge : idx0 ≥ cs.length
        · rw [if_pos hge]; exact hlenpos
        · rw [if_neg hge]; omega
      cases hget : cs.get? (if idx0 ≥ cs.length then 0 else idx0) with
      | none =>
          exfalso
          have := List.get?_eq_none.mp hget
          omega
      | some container =>
          dsimp only
          have hcont : containerSafe container = true :=
            hcs container (mem_of_get? cs _ container hget)
          have hcobj := containerSafe_isObj hcont
          cases container with
          | null => simp [Json.isObj] at hcobj
          | bool b => simp [Json.isObj] at hcobj
          | num n => simp [Json.isObj] at hcobj
          | str s => simp [Json.isObj] at hcobj
          | arr xs => simp [Json.isObj] at hcobj
          | obj cf =>
          simp only [pyDictGet_obj, py_bind_ok]
          by_cases h1 : (Json.lookup.fieldsGet ofs "type").getD Json.null
              = Json.str "update_image"
          · rw [if_pos h1]
            refine ⟨_, rfl, by simp, ?_⟩
            intro c hc
            rcases mem_set_cases _ _ _ _ hc with hmem | rfl
            · exact hcs c hmem
            · exact containerSafe_setKey_ne (Json.obj cf) "image" _ hcont (by decide)
          · rw [if_neg h1]
            by_cases h2 : (Json.lookup.fieldsGet ofs "type").getD Json.null
                = Json.str "update_command"
            · rw [if_pos h2]
              refine ⟨_, rfl, by simp, ?_⟩
              intro c hc
              rcases mem_set_cases _ _ _ _ hc with hmem | rfl
              · exact hcs c hmem
              · exact containerSafe_setKey_ne (Json.obj cf) "command" _ hcont (by decide)
            · rw [if_neg h2]
              by_cases h3 : (Json.lookup.fieldsGet ofs "type").getD Json.null
                  = Json.str "update_args"
              · rw [if_pos h3]
                refine ⟨_, rfl, by simp, ?_⟩
                intro c hc
                rcases mem_set_cases _ _ _ _ hc with hmem | rfl
                · exact hcs c hmem
                · exact containerSafe_setKey_ne (Json.obj cf) "args" _ hcont (by decide)
              · rw [if_neg h3]
                by_cases h4 : (Json.lookup.fieldsGet ofs "type").getD Json.null
                    = Json.str "update_readiness_probe"
                · rw [if_pos h4]
                  by_cases hv : ((Json.lookup.fieldsGet ofs "value").getD Json.null).isObj
                      = true
                  · rw [if_pos hv]
                    refine ⟨_, rfl, by simp, ?_⟩
                    intro c hc
                    rcases mem_set_cases _ _ _ _ hc with hmem | rfl
                    · exact hcs c hmem
                    · exact containerSafe_setKey_ne (Json.obj cf) "readinessProbe" _ hcont
                        (by decide)
                  · rw [if_neg hv]
                    exact ⟨cs, rfl, rfl, hcs⟩
                · rw [if_neg h4]
                  by_cases h5 : (Json.lookup.fieldsGet ofs "type").getD Json.null
                      = Json.str "update_liveness_probe"
                  · rw [if_pos h5]
                    by_cases hv : ((Json.lookup.fieldsGet ofs "value").getD Json.null).isObj
                        = true
                    · rw [if_pos hv]
                      refine ⟨_, rfl, by simp, ?_⟩
                      intro c hc
                      rcases mem_set_cases _ _ _ _ hc with hmem | rfl
                      · exact hcs c hmem
                      · exact containerSafe_setKey_ne (Json.obj cf) "livenessProbe" _ hcont
                          (by decide)
                    · rw [if_neg hv]
                      exact ⟨cs, rfl, rfl, hcs⟩
                  · rw [if_neg h5]
                    by_cases h6 : (Json.lookup.fieldsGet ofs "type").getD Json.null
                        = Json.str "add_env_var"
                    · rw [if_pos h6]
                      simp only [pyInStr, py_bind_ok]
                      have hc1 : containerSafe
                          (if (Json.lookup.fieldsGet cf "env").isSome = true then Json.obj cf
                           else (Json.obj cf).setKey "env" (Json.arr [])) = true := by
                        by_cases he : (Json.lookup.fieldsGet cf "env").isSome = true
                        · rw [if_pos he]; exact hcont
                        · rw [if_neg he]
                          exact containerSafe_setKey_env_arr (Json.obj cf) [] hcobj
                      cases hval : (Json.lookup.fieldsGet ofs "value").getD Json.null with
                      | obj vfs =>
                          dsimp only
                          by_cases hnv : ((Json.lookup.fieldsGet vfs "name").isSome
                              && (Json.lookup.fieldsGet vfs "value").isSome) = true
                          · rw [if_pos hnv]
                            cases henv : Json.lookup.fieldsGet cf "env" with
                            | some e =>
                                have hearr : e.isArr = true := by
                                  have := hcont
                                  unfold containerSafe at this
                                  simp only [Bool.and_eq_true] at this
                                  have h2 := this.2
                                  rw [show Json.lookup (Json.obj cf) "env"
                                    = Json.lookup.fieldsGet cf "env" from rfl, henv] at h2
                                  exact h2
                                cases e with
                                | arr exs =>
                                    rw [if_pos (show (some (Json.arr exs)).isSome = true
                                      from rfl)]
                                    have hsub : pySubscrStr (Json.obj cf) "env"
                                        = Except.ok (Json.arr exs) := by
                                      simp [pySubscrStr, henv]
                                    rw [hsub, py_bind_ok]
                                    simp only [pyAppend, py_bind_ok]
                                    refine ⟨_, rfl, by simp, ?_⟩
                                    intro c hc
                                    rcases mem_set_cases _ _ _ _ hc with hmem | rfl
                                    · exact hcs c hmem
                                    · exact containerSafe_setKey_env_arr (Json.obj cf) _ hcobj
                                | null => simp [Json.isArr] at hearr
                                | bool b => simp [Json.isArr] at hearr
                                | num n => simp [Json.isArr] at hearr
                                | str s => simp [Json.isArr] at hearr
                                | obj fs2 => simp [Json.isArr] at hearr
                            | none =>
                                rw [if_neg (show ¬(none : Option Json).isSome = true
                                  from by simp)]
                                have hsub : pySubscrStr
                                    ((Json.obj cf).setKey "env" (Json.arr [])) "env"
                                    = Except.ok (Json.arr []) := by
                                  simp [pySubscrStr, Json.setKey,
                                    fieldsGet_setFields_self]
                                rw [hsub, py_bind_ok]
                                simp only [pyAppend, py_bind_ok]
                                refine ⟨_, rfl, by simp, ?_⟩
                                intro c hc
                                rcases mem_set_cases _ _ _ _ hc with hmem | rfl
                                · exact hcs c hmem
                                · exact containerSafe_setKey_env_arr
                                    ((Json.obj cf).setKey "env" (Json.arr [])) _ (by
                                      simp [Json.setKey, Json.isObj])
                          · rw [if_neg hnv]
                            refine ⟨_, rfl, by simp, ?_⟩
                            intro c hc
                            rcases mem_set_cases _ _ _ _ hc with hmem | rfl
                            · exact hcs c hmem
                            · exact hc1
                      | null =>
                          refine ⟨_, rfl, by simp, ?_⟩
                          intro c hc
                          rcases mem_set_cases _ _ _ _ hc with hmem | rfl
                          · exact hcs c hmem
                          · exact hc1
                      | bool b =>
                          refine ⟨_, rfl, by simp, ?_⟩
                          intro c hc
                          rcases mem_set_cases _ _ _ _ hc with hmem | rfl
                          · exact hcs c hmem
                          · exact hc1
                      | num n =>
                          refine ⟨_, rfl, by simp, ?_⟩
                          intro c hc
                          rcases mem_set_cases _ _ _ _ hc with hmem | rfl
                          · exact hcs c hmem
                          · exact hc1
                      | str s =>
                          refine ⟨_, rfl, by simp, ?_⟩
                          intro c hc
                          rcases mem_set_cases _ _ _ _ hc with hmem | rfl
                          · exact hcs c hmem
                          · exact hc1
                      | arr vxs =>
                          refine ⟨_, rfl, by simp, ?_⟩
                          intro c hc
                          rcases mem_set_cases _ _ _ _ hc with hmem | rfl
                          · exact hcs c hmem
                          · exact hc1
                    · rw [if_neg h6]
                      by_cases h7 : (Json.lookup.fieldsGet ofs "type").getD Json.null
                          = Json.str "update_ports"
                      · rw [if_pos h7]
                        by_cases hv : ((Json.lookup.fieldsGet ofs "value").getD Json.null).isArr
                            = true
                        · rw [if_pos hv]
                          refine ⟨_, rfl, by simp, ?_⟩
                          intro c hc
                          rcases mem_set_cases _ _ _ _ hc with hmem | rfl
                          · exact hcs c hmem
                          · exact containerSafe_setKey_ne (Json.obj cf) "ports" _ hcont
                              (by decide)
                        · rw [if_neg hv]
                          exact ⟨cs, rfl, rfl, hcs⟩
                      · rw [if_neg h7]
                        exact ⟨cs, rfl, rfl, hcs⟩

def knownChangeTypes : List String :=
  ["update_image", "update_command", "update_args", "update_readiness_probe",
   "update_liveness_probe", "add_env_var", "update_ports"]

/-- ChangeOps the loop rejects without mutating anything: a missing or
non-string type, an unknown type string, a probe update whose value is
not a map, or a ports update whose value is not a list. -/
def opRejectedKind (op : Json) : Bool :=
  match (op.lookup "type").getD Json.null with
  | Json.str t =>
      ((t == "update_readiness_probe" || t == "update_liveness_probe")
          && !((op.lookup "value").getD Json.null).isObj)
        || (t == "update_ports" && !((op.lookup "value").getD Json.null).isArr)
        || !(knownChangeTypes.contains t)
  | _ => true

theorem applyOneChange_rejected (cs : List Json) (op : Json)
    (hcs : ∀ c ∈ cs, containerSafe c = true) (hne : cs ≠ [])
    (hop : changeOpSafe op = true) (hrej : opRejectedKind op = true) :
    applyOneChange cs op = Except.ok cs := by
  cases op with
  | null => simp [changeOpSafe, Json.isObj] at hop
  | bool b => simp [changeOpSafe, Json.isObj] at hop
  | num n => simp [changeOpSafe, Json.isObj] at hop
  | str s => simp [changeOpSafe, Json.isObj] at hop
  | arr xs => simp [changeOpSafe, Json.isObj] at hop
  | obj ofs =>
      have hpath : pathTokenSafe ((Json.lookup.fieldsGet ofs "path").getD
          (Json.arr [Json.str "0"])) = true := by
        unfold changeOpSafe at hop
        simpa [Json.isObj, Json.lookup] using hop
      obtain ⟨idx0, hidx⟩ := computeContainerIdx_safe _ hpath
      unfold applyOneChange
      simp only [pyDictGet_obj, py_bind_ok]
      rw [hidx, py_bind_ok]
      have hlenpos : 0 < cs.length := by
        cases cs with
        | nil => exact absurd rfl hne
        | cons a l => simp
      have hlt : (if idx0 ≥ cs.length then 0 else idx0) < cs.length := by
        by_cases hge : idx0 ≥ cs.length
        · rw [if_pos hge]; exact hlenpos
        · rw [if_neg hge]; omega
      cases hget : cs.get? (if idx0 ≥ cs.length then 0 else idx0) with
      | none =>
          exfalso
          have := List.get?_eq_none.mp hget
          omega
      | some container =>
          dsimp only
          have hcont : containerSafe container = true :=
            hcs container (mem_of_get? cs _ container hget)
          have hcobj := containerSafe_isObj hcont
          cases container with
          | null => simp [Json.isObj] at hcobj
          | bool b => simp [Json.isObj] at hcobj
          | num n => simp [Json.isObj] at hcobj
          | str s => simp [Json.isObj] at hcobj
          | arr xs => simp [Json.isObj] at hcobj
          | obj cf =>
          simp only [pyDictGet_obj, py_bind_ok]
          unfold opRejectedKind at hrej
          simp only [Json.lookup] at hrej
          cases hct : (Json.lookup.fieldsGet ofs "type").getD Json.null with
          | null => simp
          | bool b => simp
          | num n => simp
          | arr xs => simp
          | obj fs2 => simp
          | str t =>
              rw [hct] at hrej
              dsimp only at hrej
              simp only [Bool.or_eq_true, Bool.and_eq_true, Bool.not_eq_true,
                beq_iff_eq] at hrej
              rcases hrej with (⟨hteq, hv⟩ | ⟨hteq, hv⟩) | hunk
              · rcases hteq with rfl | rfl
                · rw [if_neg (by decide), if_neg (by decide), if_neg (by decide),
                    if_pos rfl, if_neg (fun hcontra => by rw [hcontra] at hv; simp at hv)]
                · rw [if_neg (by decide), if_neg (by decide), if_neg (by decide),
                    if_neg (by decide), if_pos rfl,
                    if_neg (fun hcontra => by rw [hcontra] at hv; simp at hv)]
              · subst hteq
                rw [if_neg (by decide), if_neg (by decide), if_neg (by decide),
                  if_neg (by decide), if_neg (by decide), if_neg (by decide),
                  if_pos rfl, if_neg (fun hcontra => by rw [hcontra] at hv; simp at hv)]
              · have hC : t ≠ "update_image" ∧ t ≠ "update_command" ∧ t ≠ "update_args"
                    ∧ t ≠ "update_readiness_probe" ∧ t ≠ "update_liveness_probe"
                    ∧ t ≠ "add_env_var" ∧ t ≠ "update_ports" := by
                  simp [knownChangeTypes] at hunk
                  tauto
                rw [if_neg (fun h => hC.1 (by injection h)),
                  if_neg (fun h => hC.2.1 (by injection h)),
                  if_neg (fun h => hC.2.2.1 (by injection h)),
                  if_neg (fun h => hC.2.2.2.1 (by injection h)),
                  if_neg (fun h => hC.2.2.2.2.1 (by injection h)),
                  if_neg (fun h => hC.2.2.2.2.2.1 (by injection h)),
                  if_neg (fun h => hC.2.2.2.2.2.2 (by injection h))]

theorem foldlM_applyOneChange_safe : ∀ (ops : List Json) (cs : List Json),
    (∀ c ∈ cs, containerSafe c = true) → cs ≠ [] →
    (∀ op ∈ ops, changeOpSafe op = true) →
    ∃ cs2, List.foldlM applyOneChange cs ops = Except.ok cs2 := by
  intro ops
  induction ops with
  | nil =>
      intro cs _ _ _
      exact ⟨cs, rfl⟩
  | cons op ops ih =>
      intro cs hcs hne hops
      obtain ⟨cs1, h1, hlen, hsafe⟩ := applyOneChange_safe cs op hcs hne
        (hops op (List.mem_cons_self op ops))
      have hne1 : cs1 ≠ [] := by
        intro hnil
        rw [hnil] at hlen
        cases cs with
        | nil => exact hne rfl
        | cons a l => simp at hlen
      obtain ⟨cs2, h2⟩ := ih cs1 hsafe hne1 (fun o ho => hops o (List.mem_cons_of_mem op ho))
      refine ⟨cs2, ?_⟩
      rw [List.foldlM_cons, h1, py_bind_ok, h2]

/-- C3 (amended): for ChangeOps that are maps with safely-shaped path
tokens, acting on a located container list of maps whose `env` fields
are lists, `apply_manifest_changes` never raises: ops of an unknown or
missing type and probe/ports ops with wrongly-typed values are skipped
with no mutation, and every valid op in the same sequence is still
applied.  (A non-map op — or a non-string path token — instead makes the
whole call raise, as the counterexample shows.) -/
theorem C3_malformed_ops :
    (∀ (docs : List Json) (target : Option String) (ops : List Json) (ti : Nat)
        (cs : List Json) (cpath : List String),
        applySetup docs (Json.arr ops) target = Except.ok (ti, cs, cpath) →
        (∀ c ∈ cs, containerSafe c = true) →
        (∀ op ∈ ops, changeOpSafe op = true) →
        ∃ out, apply_manifest_changes docs (Json.arr ops) target = Except.ok out) ∧
    (∀ (cs : List Json) (op : Json),
        (∀ c ∈ cs, containerSafe c = true) → cs ≠ [] → changeOpSafe op = true →
        opRejectedKind op = true → applyOneChange cs op = Except.ok cs) := by
  constructor
  · intro docs target ops ti cs cpath hs hcsafe hops
    obtain ⟨_, hcsne, _⟩ := applySetup_spec hs
    obtain ⟨cs2, hfold⟩ := foldlM_applyOneChange_safe ops cs hcsafe hcsne hops
    refine ⟨docs.set ti (setAtPath (docs.getD ti Json.null) cpath (Json.arr cs2)), ?_⟩
    unfold apply_manifest_changes
    rw [hs, py_bind_ok]
    dsimp only
    rw [show pyIter (Json.arr ops) = Except.ok ops from rfl, py_bind_ok, hfold, py_bind_ok]
  · intro cs op h1 h2 h3 h4
    exact applyOneChange_rejected cs op h1 h2 h3 h4

/-- C3 witness: a sequence holding one rejected op (ports with a string
value) and one valid `update_image` op still applies, and the rejected
op alone leaves the container list untouched. -/
theorem C3_malformed_ops_witness :
    (∃ out, apply_manifest_changes [podDoc]
        (Json.arr [Json.obj [("type", Json.str "update_ports"), ("value", Json.str "bad")],
                   Json.obj [("type", Json.str "update_image"),
                             ("path", Json.arr [Json.str "0"]),
                             ("value", Json.str "nginx:1.21")]]) none
      = Except.ok out) ∧
      applyOneChange [Json.obj [("name", Json.str "c")]]
          (Json.obj [("type", Json.str "update_ports"), ("value", Json.str "bad")])
        = Except.ok [Json.obj [("name", Json.str "c")]] := by
  constructor
  · exact C3_malformed_ops.1 [podDoc] none
      [Json.obj [("type", Json.str "update_ports"), ("value", Json.str "bad")],
       Json.obj [("type", Json.str "update_image"), ("path", Json.arr [Json.str "0"]),
                 ("value", Json.str "nginx:1.21")]]
      0 [Json.obj [("name", Json.str "c")]] ["spec", "containers"]
      rfl
      (by intro c hc; rw [List.mem_singleton] at hc; subst hc; decide)
      (by
        intro o ho
        rcases List.mem_cons.mp ho with rfl | ho2
        · decide
        · rw [List.mem_singleton] at ho2; subst ho2; decide)
  · exact C3_malformed_ops.2 [Json.obj [("name", Json.str "c")]]
      (Json.obj [("type", Json.str "update_ports"), ("value", Json.str "bad")])
      (by intro c hc; rw [List.mem_singleton] at hc; subst hc; decide)
      (by decide) (by decide) (by decide)

/- ---------------------------------------------------------------------
C7.
--------------------------------------------------------------------- -/

theorem find?_append_none {α : Type} (p : α → Bool) :
    ∀ (l1 l2 : List α), l1.find? p = none → (l1 ++ l2).find? p = l2.find? p := by
  intro l1
  induction l1 with
  | nil => intro l2 _; rfl
  | cons x xs ih =>
      intro l2 h
      by_cases hx : p x = true
      · rw [List.find?_cons_of_pos _ hx] at h
        simp at h
      · rw [List.find?_cons_of_neg _ hx] at h
        rw [List.cons_append, List.find?_cons_of_neg _ hx]
        exact ih l2 h

theorem pr_already_exists_append {st st' : GithubState} {pre : String} {p : PullReq}
    (hp : st'.pulls = st.pulls ++ [p])
    (hnone : pr_already_exists st pre = none)
    (hopen : p.isOpenPR = true) (hbase : (p.baseRef == GITHUB_BRANCH) = true)
    (hstart : strStarts p.headRef pre = true) :
    pr_already_exists st' pre = some p.htmlUrl := by
  unfold pr_already_exists at hnone ⊢
  rw [hp, List.filter_append]
  have hfnone : (st.pulls.filter (fun q => q.isOpenPR && q.baseRef == GITHUB_BRANCH)).find?
      (fun q => strStarts q.headRef pre) = none := by
    cases hfind : (st.pulls.filter (fun q => q.isOpenPR && q.baseRef == GITHUB_BRANCH)).find?
        (fun q => strStarts q.headRef pre) with
    | none => rfl
    | some q => rw [hfind] at hnone; simp at hnone
  have hfp : List.filter (fun q => q.isOpenPR && q.baseRef == GITHUB_BRANCH) [p] = [p] := by
    simp [List.filter, hopen, hbase]
  rw [hfp, find?_append_none _ _ _ hfnone]
  simp [List.find?, hstart]

theorem createFixPrepare_files_congr {st st' : GithubState} (ins : Json)
    (h : st.files = st'.files) : createFixPrepare st ins = createFixPrepare st' ins := by
  unfold createFixPrepare getContentsDocs
  simp only [h]

/-- C7: invoking the publisher twice for the same pod with no
intervening closure yields the same review-request URL both times and
creates exactly one branch — the second call returns the first call's
URL and leaves the store untouched. -/
theorem C7_idempotent_publish (st : GithubState) (pod : String) (ins : Json)
    (rca1 rca2 t1 t2 : String) (u1 : String) (st1 : GithubState)
    (hpre : pr_already_exists st ("fix/" ++ pod) = none)
    (h1 : create_fix_pr st (Json.str pod) ins rca1 t1 = (some u1, st1)) :
    create_fix_pr st1 (Json.str pod) ins rca2 t2 = (some u1, st1) ∧
      st1.branches = st.branches ++ [("fix/" ++ pod) ++ "-" ++ t1] := by
  unfold create_fix_pr at h1
  cases hr : createFixRun st (Json.str pod) ins t1 with
  | error e => rw [hr] at h1; simp at h1
  | ok r =>
      rw [hr] at h1
      dsimp only at h1
      subst h1
      unfold createFixRun at hr
      cases hp : createFixPrepare st ins with
      | error e => rw [hp, py_bind_error] at hr; simp at hr
      | ok prep =>
          rw [hp, py_bind_ok] at hr
          cases prep with
          | none => dsimp only at hr; simp at hr
          | some trip =>
              obtain ⟨mp, chs, fx⟩ := trip
              dsimp only at hr
              rw [pyStrOf_str] at hr
              rw [hpre] at hr
              have hinsobj : ins.isObj = true := by
                unfold createFixPrepare at hp
                cases hpt : pyDictGet ins "problem_type" (Json.str "other") with
                | error e => rw [hpt, py_bind_error] at hp; simp at hp
                | ok v => exact pyDictGet_ok_isObj hpt
              cases ins with
              | null => simp [Json.isObj] at hinsobj
              | bool b => simp [Json.isObj] at hinsobj
              | num n => simp [Json.isObj] at hinsobj
              | str s => simp [Json.isObj] at hinsobj
              | arr xs => simp [Json.isObj] at hinsobj
              | obj insf =>
              cases hsum : changeSummary chs with
              | error e => rw [hsum, py_bind_error] at hr; simp at hr
              | ok summary =>
                  rw [hsum, py_bind_ok] at hr
                  simp only [pyDictGet_obj, py_bind_ok] at hr
                  have hr2 : ("https://example.invalid/pull/" ++ toString st.nextPrId = u1)
                      ∧ ({ st with
                            branches := st.branches ++ [("fix/" ++ pod) ++ "-" ++ t1],
                            commits := st.commits ++ [(("fix/" ++ pod) ++ "-" ++ t1, mp)],
                            pulls := st.pulls ++ [⟨("fix/" ++ pod) ++ "-" ++ t1,
                              GITHUB_BRANCH,
                              "https://example.invalid/pull/" ++ toString st.nextPrId, true⟩],
                            nextPrId := st.nextPrId + 1 } : GithubState) = st1 := by
                    simpa [Prod.ext_iff] using hr
                  obtain ⟨hu, hst⟩ := hr2
                  constructor
                  · unfold create_fix_pr createFixRun
                    have hfiles : st1.files = st.files := by rw [← hst]
                    rw [createFixPrepare_files_congr (Json.obj insf) hfiles, hp, py_bind_ok]
                    dsimp only
                    rw [pyStrOf_str]
                    have hex1 : pr_already_exists st1 ("fix/" ++ pod) = some u1 := by
                      have happ := @pr_already_exists_append
                        st st1 ("fix/" ++ pod)
                        ⟨("fix/" ++ pod) ++ "-" ++ t1, GITHUB_BRANCH,
                          "https://example.invalid/pull/" ++ toString st.nextPrId, true⟩
                        (by rw [← hst]) hpre rfl (by simp)
                        (by
                          show strStarts ((("fix/" ++ pod) ++ "-" ++ t1)) ("fix/" ++ pod)
                            = true
                          have := strStarts_append ("fix/" ++ pod) ("-" ++ t1)
                          simpa [String.append_assoc] using this)
                      rw [happ]
                      simp [hu]
                    rw [hex1]
                  · rw [← hst]
/-- C7 supporting store fixtures. -/
def pubStore0 : GithubState :=
  ⟨[], [], [("app/failing-app.yaml", [podDoc])], "sha0", [], 0⟩

def pubIns : Json :=
  Json.obj [("problem_type", Json.str "other"),
            ("changes", Json.arr [Json.obj [("type", Json.str "update_image"),
              ("path", Json.arr [Json.str "0"]), ("value", Json.str "nginx:1.21")]])]

def pubStore1 : GithubState :=
  ⟨[⟨"fix/web-20250101", "main", "https://example.invalid/pull/0", true⟩],
   ["fix/web-20250101"], [("app/failing-app.yaml", [podDoc])], "sha0",
   [("fix/web-20250101", "app/failing-app.yaml")], 1⟩

/-- C7 witness: a concrete double invocation for pod `web`. -/
theorem C7_idempotent_publish_witness :
    create_fix_pr pubStore1 (Json.str "web") pubIns "" "20250202"
        = (some "https://example.invalid/pull/0", pubStore1) ∧
      pubStore1.branches = pubStore0.branches ++ ["fix/web-20250101"] := by
  have h := C7_idempotent_publish pubStore0 "web" pubIns "" "" "20250101" "20250202"
    "https://example.invalid/pull/0" pubStore1 rfl rfl
  exact h

/- ---------------------------------------------------------------------
C4: best-effort response of the /alerts handler.
--------------------------------------------------------------------- -/

/-- Field `k`, when present, is a string. -/
def strOrAbsent (fs : List (String × Json)) (k : String) : Bool :=
  match Json.lookup.fieldsGet fs k with
  | some (Json.str _) => true
  | some _ => false
  | none => true

/-- Field `k`, when present, is a dict. -/
def objOrAbsent (fs : List (String × Json)) (k : String) : Bool :=
  match Json.lookup.fieldsGet fs k with
  | some (Json.obj _) => true
  | some _ => false
  | none => true

/-- An alert payload the handler digests without an uncaught exception:
a dict whose status is a string when present and whose labels and
annotations maps are dicts when present. -/
def wfAlert : Json → Bool
  | Json.obj fs =>
      strOrAbsent fs "status" && objOrAbsent fs "labels" && objOrAbsent fs "annotations"
  | _ => false

/-- A change entry the logging and Slack-notification code digests: a
dict whose description is a string when present. -/
def wfChangeForSlack : Json → Bool
  | Json.obj cf => strOrAbsent cf "description"
  | _ => false

/-- problem_type is present and a string. -/
def ptStrPresent (fs : List (String × Json)) : Bool :=
  match Json.lookup.fieldsGet fs "problem_type" with
  | some (Json.str _) => true
  | _ => false

/-- problem_analysis, when present and truthy, is a string. -/
def paOk (fs : List (String × Json)) : Bool :=
  match Json.lookup.fieldsGet fs "problem_analysis" with
  | some v => !pyTruthy v || v.isStr
  | none => true

/-- changes, when present, is a list of digestible dicts. -/
def changesOk (fs : List (String × Json)) : Bool :=
  match Json.lookup.fieldsGet fs "changes" with
  | some (Json.arr cs) => cs.all wfChangeForSlack
  | some _ => false
  | none => true

/-- An instruction value the post-parse stages digest without an
uncaught exception: either falsy (treated as absence throughout), or a
dict satisfying the field-shape conditions above.  The non-dict cases
spell out falsiness per constructor. -/
def wfInstructions : Json → Bool
  | Json.null => true
  | Json.bool b => !b
  | Json.num n => decide (n = 0)
  | Json.str s => decide (s = "")
  | Json.arr xs => xs.isEmpty
  | Json.obj fs =>
      fs.isEmpty ||
        (ptStrPresent fs && paOk fs && changesOk fs && objOrAbsent fs "validation_data")

/-- The instruction value `handle_alert` computes from the outcome of
the model call. -/
def instructionsOf (env : HandlerEnv) : Json :=
  match env.ollamaResult with
  | Except.ok t => parse_ollama_instructions t
  | Except.error _ => Json.null

theorem strOrAbsent_cases {fs : List (String × Json)} {k : String}
    (h : strOrAbsent fs k = true) :
    Json.lookup.fieldsGet fs k = none ∨
      ∃ s, Json.lookup.fieldsGet fs k = some (Json.str s) := by
  unfold strOrAbsent at h
  cases hx : Json.lookup.fieldsGet fs k with
  | none => exact Or.inl rfl
  | some v =>
      rw [hx] at h
      cases v with
      | str s => exact Or.inr ⟨s, rfl⟩
      | null => simp at h
      | bool b => simp at h
      | num n => simp at h
      | arr xs => simp at h
      | obj g => simp at h

theorem objOrAbsent_cases {fs : List (String × Json)} {k : String}
    (h : objOrAbsent fs k = true) :
    Json.lookup.fieldsGet fs k = none ∨
      ∃ g, Json.lookup.fieldsGet fs k = some (Json.obj g) := by
  unfold objOrAbsent at h
  cases hx : Json.lookup.fieldsGet fs k with
  | none => exact Or.inl rfl
  | some v =>
      rw [hx] at h
      cases v with
      | obj g => exact Or.inr ⟨g, rfl⟩
      | null => simp at h
      | bool b => simp at h
      | num n => simp at h
      | arr xs => simp at h
      | str s => simp at h

theorem ptStrPresent_some {fs : List (String × Json)}
    (h : ptStrPresent fs = true) :
    ∃ s, Json.lookup.fieldsGet fs "problem_type" = some (Json.str s) := by
  unfold ptStrPresent at h
  cases hx : Json.lookup.fieldsGet fs "problem_type" with
  | none => rw [hx] at h; simp at h
  | some v =>
      rw [hx] at h
      cases v with
      | str s => exact ⟨s, rfl⟩
      | null => simp at h
      | bool b => simp at h
      | num n => simp at h
      | arr xs => simp at h
      | obj g => simp at h

theorem paOk_cases {fs : List (String × Json)}
    (h : paOk fs = true) :
    Json.lookup.fieldsGet fs "problem_analysis" = none ∨
      (∃ v, Json.lookup.fieldsGet fs "problem_analysis" = some v ∧
        (pyTruthy v = false ∨ ∃ s, v = Json.str s)) := by
  unfold paOk at h
  cases hx : Json.lookup.fieldsGet fs "problem_analysis" with
  | none => exact Or.inl rfl
  | some v =>
      rw [hx] at h
      cases v with
      | str s => exact Or.inr ⟨Json.str s, rfl, Or.inr ⟨s, rfl⟩⟩
      | null => exact Or.inr ⟨Json.null, rfl, Or.inl rfl⟩
      | bool b =>
          refine Or.inr ⟨Json.bool b, rfl, Or.inl ?_⟩
          simp [Json.isStr] at h
          simpa [pyTruthy] using h
      | num n =>
          refine Or.inr ⟨Json.num n, rfl, Or.inl ?_⟩
          simp [Json.isStr] at h
          simpa [pyTruthy] using h
      | arr xs =>
          refine Or.inr ⟨Json.arr xs, rfl, Or.inl ?_⟩
          simp [Json.isStr] at h
          simpa [pyTruthy] using h
      | obj g =>
          refine Or.inr ⟨Json.obj g, rfl, Or.inl ?_⟩
          simp [Json.isStr] at h
          simpa [pyTruthy] using h

theorem changesOk_cases {fs : List (String × Json)}
    (h : changesOk fs = true) :
    Json.lookup.fieldsGet fs "changes" = none ∨
      (∃ cs, Json.lookup.fieldsGet fs "changes" = some (Json.arr cs) ∧
        ∀ c ∈ cs, wfChangeForSlack c = true) := by
  unfold changesOk at h
  cases hx : Json.lookup.fieldsGet fs "changes" with
  | none => exact Or.inl rfl
  | some v =>
      rw [hx] at h
      cases v with
      | arr cs =>
          refine Or.inr ⟨cs, rfl, ?_⟩
          simpa [List.all_eq_true] using h
      | null => simp at h
      | bool b => simp at h
      | num n => simp at h
      | str s => simp at h
      | obj g => simp at h

theorem py_pure_bind {α β : Type} (a : α) (f : α → Py β) :
    (pure a : Py α) >>= f = f a := rfl

theorem mapM_py_ok {α β : Type} (f : α → Py β) :
    ∀ (l : List α), (∀ a ∈ l, ∃ b, f a = Except.ok b) →
      ∃ out, l.mapM f = Except.ok out
  | [], _ => ⟨[], rfl⟩
  | a :: l, h => by
      obtain ⟨b, hb⟩ := h a (List.mem_cons_self a l)
      obtain ⟨out, hout⟩ := mapM_py_ok f l (fun x hx => h x (List.mem_cons_of_mem a hx))
      exact ⟨b :: out, by rw [List.mapM_cons, hb, py_bind_ok, hout, py_bind_ok]; rfl⟩

theorem format_alert_ok (a : Json) (h : wfAlert a = true) :
    ∃ s, format_alert a = Except.ok s := by
  cases a with
  | null => simp [wfAlert] at h
  | bool b => simp [wfAlert] at h
  | num n => simp [wfAlert] at h
  | str s => simp [wfAlert] at h
  | arr xs => simp [wfAlert] at h
  | obj fs =>
      simp only [wfAlert, Bool.and_eq_true] at h
      obtain ⟨⟨hs, hl⟩, ha⟩ := h
      have hst : ∃ s, (Json.lookup.fieldsGet fs "status").getD (Json.str "unknown")
          = Json.str s := by
        rcases strOrAbsent_cases hs with hx | ⟨s, hx⟩
        · exact ⟨"unknown", by rw [hx]; rfl⟩
        · exact ⟨s, by rw [hx]; rfl⟩
      have hlb : ∃ g, (Json.lookup.fieldsGet fs "labels").getD (Json.obj [])
          = Json.obj g := by
        rcases objOrAbsent_cases hl with hx | ⟨g, hx⟩
        · exact ⟨[], by rw [hx]; rfl⟩
        · exact ⟨g, by rw [hx]; rfl⟩
      have han : ∃ g, (Json.lookup.fieldsGet fs "annotations").getD (Json.obj [])
          = Json.obj g := by
        rcases objOrAbsent_cases ha with hx | ⟨g, hx⟩
        · exact ⟨[], by rw [hx]; rfl⟩
        · exact ⟨g, by rw [hx]; rfl⟩
      obtain ⟨st, hst⟩ := hst
      obtain ⟨lf, hlb⟩ := hlb
      obtain ⟨af, han⟩ := han
      cases hfa : format_alert (Json.obj fs) with
      | ok v => exact ⟨v, rfl⟩
      | error e =>
          simp only [format_alert, pyDictGet, hst, hlb, han, pyUpper, py_bind_ok] at hfa
          exact Except.noConfusion hfa

theorem processInstructions_ok (env : HandlerEnv) (pn : Json) (ins : Json) (rca : String)
    (h : wfInstructions ins = true) :
    ∃ pv, processInstructions env pn ins rca = Except.ok pv := by
  cases ht : pyTruthy ins with
  | false =>
      refine ⟨(none, none), ?_⟩
      simp [processInstructions, ht]
      rfl
  | true =>
      cases ins with
      | null => simp [pyTruthy] at ht
      | bool b =>
          rw [wfInstructions] at h
          simp [pyTruthy] at ht
          simp [ht] at h
      | num n =>
          rw [wfInstructions] at h
          simp [pyTruthy] at ht
          simp [ht] at h
      | str s =>
          rw [wfInstructions] at h
          simp [pyTruthy] at ht
          simp [ht] at h
      | arr xs =>
          rw [wfInstructions] at h
          simp [pyTruthy] at ht
          simp [ht] at h
      | obj fs =>
          have hne : fs.isEmpty = false := by simpa [pyTruthy] using ht
          rw [wfInstructions, hne] at h
          simp only [Bool.false_or, Bool.and_eq_true] at h
          obtain ⟨⟨⟨h1, h2⟩, h3⟩, h4⟩ := h
          obtain ⟨pt, hpt⟩ := ptStrPresent_some h1
          have hch : ∃ cs, (Json.lookup.fieldsGet fs "changes").getD (Json.arr [])
              = Json.arr cs ∧ (∀ c ∈ cs, wfChangeForSlack c = true) := by
            rcases changesOk_cases h3 with hx | ⟨cs, hx, hall⟩
            · refine ⟨[], ?_, ?_⟩
              · rw [hx]; rfl
              · intro c hc; cases hc
            · refine ⟨cs, ?_, hall⟩
              rw [hx]; rfl
          obtain ⟨cs, hcs, hcall⟩ := hch
          have hvd : ∃ g, (Json.lookup.fieldsGet fs "validation_data").getD (Json.obj [])
              = Json.obj g := by
            rcases objOrAbsent_cases h4 with hx | ⟨g, hx⟩
            · exact ⟨[], by rw [hx]; rfl⟩
            · exact ⟨g, by rw [hx]; rfl⟩
          obtain ⟨vdf, hvd⟩ := hvd
          obtain ⟨us, hus⟩ := mapM_py_ok
            (fun c => (pyDictGet c "type" Json.null) >>= fun _t =>
              (pyDictGet c "description" Json.null) >>= fun _d => (pure () : Py Unit)) cs
            (fun c hc => by
              have hc2 := hcall c hc
              cases c with
              | obj cf => exact ⟨(), rfl⟩
              | null => simp [wfChangeForSlack] at hc2
              | bool b => simp [wfChangeForSlack] at hc2
              | num n => simp [wfChangeForSlack] at hc2
              | str s => simp [wfChangeForSlack] at hc2
              | arr xs => simp [wfChangeForSlack] at hc2)
          cases hpi : processInstructions env pn (Json.obj fs) rca with
          | ok pv => exact ⟨pv, rfl⟩
          | error e =>
              simp only [processInstructions, ht, if_true, pyDictGet_obj, pyIter, pyLen,
                hcs, hvd, py_bind_ok, py_pure_bind] at hpi
              rw [hus] at hpi
              simp only [py_bind_ok] at hpi
              repeat
                first
                  | exact Except.noConfusion hpi
                  | split at hpi
                  | simp only [pyDictGet_obj, py_bind_ok, py_pure_bind, hvd] at hpi
set_option maxHeartbeats 1600000 in
theorem compose_ok (a : Json) (rest : List Json) (ins : Json) (rca : String)
    (prUrl : Option String) (vres : Option String) (now : String)
    (ha : wfAlert a = true) (hins : wfInstructions ins = true) :
    ∃ b, compose_slack_alert_blocks (Json.arr (a :: rest)) ins rca prUrl vres now
      = Except.ok b := by
  cases a with
  | null => simp [wfAlert] at ha
  | bool b => simp [wfAlert] at ha
  | num n => simp [wfAlert] at ha
  | str s => simp [wfAlert] at ha
  | arr xs => simp [wfAlert] at ha
  | obj fs =>
      simp only [wfAlert, Bool.and_eq_true] at ha
      obtain ⟨⟨hs, hl⟩, hann⟩ := ha
      have hst : ∃ s, (Json.lookup.fieldsGet fs "status").getD (Json.str "unknown")
          = Json.str s := by
        rcases strOrAbsent_cases hs with hx | ⟨s, hx⟩
        · exact ⟨"unknown", by rw [hx]; rfl⟩
        · exact ⟨s, by rw [hx]; rfl⟩
      have hlb : ∃ g, (Json.lookup.fieldsGet fs "labels").getD (Json.obj [])
          = Json.obj g := by
        rcases objOrAbsent_cases hl with hx | ⟨g, hx⟩
        · exact ⟨[], by rw [hx]; rfl⟩
        · exact ⟨g, by rw [hx]; rfl⟩
      have han : ∃ g, (Json.lookup.fieldsGet fs "annotations").getD (Json.obj [])
          = Json.obj g := by
        rcases objOrAbsent_cases hann with hx | ⟨g, hx⟩
        · exact ⟨[], by rw [hx]; rfl⟩
        · exact ⟨g, by rw [hx]; rfl⟩
      obtain ⟨st, hst⟩ := hst
      obtain ⟨lf, hlb⟩ := hlb
      obtain ⟨af, han⟩ := han
      cases hti : pyTruthy ins with
      | false =>
          cases hcb : compose_slack_alert_blocks (Json.arr (Json.obj fs :: rest)) ins rca
              prUrl vres now with
          | ok v => exact ⟨v, rfl⟩
          | error e =>
              simp only [compose_slack_alert_blocks, pySubscrNat, List.get?, pyDictGet_obj,
                pyUpper, hst, hlb, han, hti, Bool.false_eq_true, if_false, if_true,
                eq_self_iff_true, py_bind_ok, py_pure_bind, Json.isArr, Json.isObj,
                Bool.or_self] at hcb
              repeat
                first
                  | exact Except.noConfusion hcb
                  | split at hcb
                  | simp only [py_bind_ok, py_pure_bind] at hcb
      | true =>
          cases ins with
          | null => simp [pyTruthy] at hti
          | bool b =>
              rw [wfInstructions] at hins
              simp [pyTruthy] at hti
              simp [hti] at hins
          | num n =>
              rw [wfInstructions] at hins
              simp [pyTruthy] at hti
              simp [hti] at hins
          | str s =>
              rw [wfInstructions] at hins
              simp [pyTruthy] at hti
              simp [hti] at hins
          | arr xs =>
              rw [wfInstructions] at hins
              simp [pyTruthy] at hti
              simp [hti] at hins
          | obj gs =>
              have hne : gs.isEmpty = false := by simpa [pyTruthy] using hti
              rw [wfInstructions, hne] at hins
              simp only [Bool.false_or, Bool.and_eq_true] at hins
              obtain ⟨⟨⟨h1, h2⟩, h3⟩, h4⟩ := hins
              obtain ⟨pt, hpt⟩ := ptStrPresent_some h1
              have hptD : ∀ d, (Json.lookup.fieldsGet gs "problem_type").getD d
                  = Json.str pt := by intro d; rw [hpt]; rfl
              have hchoice : ∃ chs, (Json.lookup.fieldsGet gs "changes").getD Json.null
                  = chs ∧ (pyTruthy chs = false ∨
                    (∃ c0 cs1, chs = Json.arr (c0 :: cs1) ∧
                      Json.lookup.fieldsGet gs "changes" = some (Json.arr (c0 :: cs1)) ∧
                      wfChangeForSlack c0 = true)) := by
                rcases changesOk_cases h3 with hch | ⟨cs, hch, hcall⟩
                · exact ⟨Json.null, by rw [hch]; rfl, Or.inl rfl⟩
                · cases cs with
                  | nil => exact ⟨Json.arr [], by rw [hch]; rfl, Or.inl rfl⟩
                  | cons c0 cs1 =>
                      exact ⟨Json.arr (c0 :: cs1), by rw [hch]; rfl,
                        Or.inr ⟨c0, cs1, rfl, hch,
                          hcall c0 (List.mem_cons_self c0 cs1)⟩⟩
              obtain ⟨chs, hch1, hchv⟩ := hchoice
              cases hcb : compose_slack_alert_blocks (Json.arr (Json.obj fs :: rest))
                  (Json.obj gs) rca prUrl vres now with
              | ok v => exact ⟨v, rfl⟩
              | error e =>
                  have hpaC : ∃ pa, (Json.lookup.fieldsGet gs "problem_analysis").getD
                      Json.null = pa ∧ (pyTruthy pa = false ∨
                        (∃ s, pa = Json.str s ∧
                          (Json.lookup.fieldsGet gs "problem_analysis").getD (Json.str "")
                            = Json.str s)) := by
                    rcases paOk_cases h2 with hpa | ⟨pv, hpa, hpv⟩
                    · exact ⟨Json.null, by rw [hpa]; rfl, Or.inl rfl⟩
                    · rcases hpv with hfal | ⟨s, rfl⟩
                      · exact ⟨pv, by rw [hpa]; rfl, Or.inl hfal⟩
                      · exact ⟨Json.str s, by rw [hpa]; rfl,
                          Or.inr ⟨s, rfl, by rw [hpa]; rfl⟩⟩
                  obtain ⟨pa, hpa1, hpav⟩ := hpaC
                  rcases hchv with hchF | ⟨c0, cs1, rfl, hch, hc0⟩
                  · -- changes read is falsy: the ai_fix branch is skipped
                    rcases hpav with hfal | ⟨ps, rfl, hpa2⟩
                    · simp only [compose_slack_alert_blocks, pySubscrNat, List.get?,
                        pyDictGet_obj, pyUpper, hst, hlb, han, hti, hptD, hpa1, hch1,
                        hfal, hchF, Json.isArr, Json.isObj, Bool.or_self,
                        Bool.false_eq_true, if_false, if_true, eq_self_iff_true,
                        py_bind_ok, py_pure_bind] at hcb
                      repeat
                        first
                          | exact Except.noConfusion hcb
                          | split at hcb
                          | simp only [py_bind_ok, py_pure_bind] at hcb
                    · simp only [compose_slack_alert_blocks, pySubscrNat, List.get?,
                        pyDictGet_obj, pyUpper, hst, hlb, han, hti, hptD, hpa1, hpa2,
                        hch1, hchF, Json.isArr, Json.isObj, Bool.or_self,
                        Bool.false_eq_true, if_false, if_true, eq_self_iff_true,
                        py_bind_ok, py_pure_bind] at hcb
                      repeat
                        first
                          | exact Except.noConfusion hcb
                          | split at hcb
                          | simp only [py_bind_ok, py_pure_bind] at hcb
                  · -- non-empty changes list: the first change is read for Slack
                    have hcons : pyTruthy (Json.arr (c0 :: cs1)) = true := rfl
                    cases c0 with
                    | null => simp [wfChangeForSlack] at hc0
                    | bool b => simp [wfChangeForSlack] at hc0
                    | num n => simp [wfChangeForSlack] at hc0
                    | str s => simp [wfChangeForSlack] at hc0
                    | arr xs => simp [wfChangeForSlack] at hc0
                    | obj cf =>
                        simp only [wfChangeForSlack] at hc0
                        have hd : ∃ ds, (Json.lookup.fieldsGet cf "description").getD
                            (Json.str "") = Json.str ds := by
                          rcases strOrAbsent_cases hc0 with hx | ⟨s, hx⟩
                          · exact ⟨"", by rw [hx]; rfl⟩
                          · exact ⟨s, by rw [hx]; rfl⟩
                        obtain ⟨ds, hd⟩ := hd
                        rcases hpav with hfal | ⟨ps, rfl, hpa2⟩
                        · simp only [compose_slack_alert_blocks, pySubscrNat, List.get?,
                            pyDictGet_obj, pyUpper, pySubscrStr, pySliceTake, hst, hlb,
                            han, hti, hptD, hpa1, hch1, hch, hcons, hd, hfal, Json.isArr,
                            Json.isObj, Bool.or_self, Bool.false_eq_true, if_false,
                            if_true, eq_self_iff_true, py_bind_ok, py_pure_bind] at hcb
                          repeat
                            first
                              | exact Except.noConfusion hcb
                              | split at hcb
                              | simp only [py_bind_ok, py_pure_bind] at hcb
                        · simp only [compose_slack_alert_blocks, pySubscrNat, List.get?,
                            pyDictGet_obj, pyUpper, pySubscrStr, pySliceTake, hst, hlb,
                            han, hti, hptD, hpa1, hpa2, hch1, hch, hcons, hd, Json.isArr,
                            Json.isObj, Bool.or_self, Bool.false_eq_true, if_false,
                            if_true, eq_self_iff_true, py_bind_ok, py_pure_bind] at hcb
                          repeat
                            first
                              | exact Except.noConfusion hcb
                              | split at hcb
                              | simp only [py_bind_ok, py_pure_bind] at hcb
theorem ptGet_ok (ins : Json) (h : wfInstructions ins = true)
    (ht : pyTruthy ins = true) :
    ∃ v, pyDictGet ins "problem_type" Json.null = Except.ok v := by
  cases ins with
  | null => simp [pyTruthy] at ht
  | bool b =>
      rw [wfInstructions] at h
      simp [pyTruthy] at ht
      simp [ht] at h
  | num n =>
      rw [wfInstructions] at h
      simp [pyTruthy] at ht
      simp [ht] at h
  | str s =>
      rw [wfInstructions] at h
      simp [pyTruthy] at ht
      simp [ht] at h
  | arr xs =>
      rw [wfInstructions] at h
      simp [pyTruthy] at ht
      simp [ht] at h
  | obj gs => exact ⟨(Json.lookup.fieldsGet gs "problem_type").getD Json.null, rfl⟩

theorem py_pure_def {α : Type} (a : α) : (pure a : Py α) = Except.ok a := rfl

def data4 : Json :=
  Json.obj [("alerts",
    Json.arr [Json.obj [("labels", Json.obj [("pod", Json.str "web")])]])]

def env4 : HandlerEnv :=
  { ollamaResult := Except.ok "\x7b\"requires_pr\": false\x7d",
    ghState := ⟨[], [], [("app/failing-app.yaml", [podDoc])], "sha0", [], 0⟩,
    timestamp := "20250101",
    imageCheckFn := fun _ => (true, "ok"),
    nowShort := "now",
    currentManifest := none }

/-- C4, counterexample to the unconditional claim: a one-alert batch is
received (the batch is truthy) and the model's reply parses to the dict
containing only requires_pr, yet `handle_alert` raises AttributeError
instead of returning a response: the Slack-block composer runs outside
any try/except and calls `.replace` on the missing (None) problem_type. -/
theorem C4_counterexample :
    pyTruthy (Json.arr [Json.obj [("labels", Json.obj [("pod", Json.str "web")])]])
        = true ∧
    parse_ollama_instructions "\x7b\"requires_pr\": false\x7d"
        = Json.obj [("requires_pr", Json.bool false)] ∧
    handle_alert env4 data4 = Except.error PyErr.attributeError :=
  ⟨rfl, rfl, rfl⟩

/-- C4 (amended): an empty alert batch is rejected with a 400 response,
and once a non-empty batch is received the handler returns the 200
best-effort response (pod name, analysis_completed, pr_created, pr_url,
problem_type) provided the alerts are well-shaped dicts and the parsed
instruction value is digestible (`wfInstructions`); for instruction
values outside that set — e.g. a dict whose problem_type is absent or
not a string — the handler instead raises out of the unprotected
Slack-block composer (see the counterexample). -/
theorem C4_best_effort_response (env : HandlerEnv) (data : Json) (av : Json)
    (a : Json) (rest : List Json)
    (hav : pyDictGet data "alerts" (Json.arr []) = Except.ok av) :
    (pyTruthy av = false →
       handle_alert env data
         = Except.ok (Json.obj [("status", Json.str "no alerts received")], 400)) ∧
    (av = Json.arr (a :: rest) →
     (∀ x ∈ a :: rest, wfAlert x = true) →
     wfInstructions (instructionsOf env) = true →
     ∃ pod_name prUrl ptField analysisDone,
       handle_alert env data
         = Except.ok (Json.obj
             [("status", Json.str "ok"),
              ("pod_name", pod_name),
              ("analysis_completed", Json.bool analysisDone),
              ("pr_created", Json.bool (Option.isSome prUrl)),
              ("pr_url", match prUrl with | some u => Json.str u | none => Json.null),
              ("problem_type", ptField)], 200)) := by
  constructor
  · intro hf
    unfold handle_alert
    rw [hav, py_bind_ok, if_pos (by simp [hf])]
    rfl
  · rintro rfl hwf hins
    have hA := hwf a (List.mem_cons_self a rest)
    cases a with
    | null => simp [wfAlert] at hA
    | bool b => simp [wfAlert] at hA
    | num n => simp [wfAlert] at hA
    | str s => simp [wfAlert] at hA
    | arr xs => simp [wfAlert] at hA
    | obj afs =>
        have ht0 : pyTruthy (Json.arr (Json.obj afs :: rest)) = true := rfl
        have hl0 : objOrAbsent afs "labels" = true := by
          simp only [wfAlert, Bool.and_eq_true] at hA
          exact hA.1.2
        have hlfs : ∃ g, (Json.lookup.fieldsGet afs "labels").getD (Json.obj [])
            = Json.obj g := by
          rcases objOrAbsent_cases hl0 with hx | ⟨g, hx⟩
          · exact ⟨[], by rw [hx]; rfl⟩
          · exact ⟨g, by rw [hx]; rfl⟩
        obtain ⟨lfs, hlfs⟩ := hlfs
        obtain ⟨fm, hfm⟩ := mapM_py_ok format_alert (Json.obj afs :: rest)
          (fun x hx => format_alert_ok x (hwf x hx))
        cases henv : env.ollamaResult with
        | ok t =>
            simp only [instructionsOf, henv] at hins
            obtain ⟨pv, hpv⟩ := processInstructions_ok env
              ((Json.lookup.fieldsGet lfs "pod").getD (Json.str "unknown"))
              (parse_ollama_instructions t) t hins
            obtain ⟨bl, hbl⟩ := compose_ok (Json.obj afs) rest
              (parse_ollama_instructions t) t pv.1 pv.2 env.nowShort
              (hwf _ (List.mem_cons_self _ _)) hins
            cases htp : pyTruthy (parse_ollama_instructions t) with
            | true =>
                obtain ⟨ptv, hptv⟩ := ptGet_ok (parse_ollama_instructions t) hins htp
                cases hha : handle_alert env data with
                | error e =>
                    simp only [handle_alert, hav, py_bind_ok, py_pure_bind, py_pure_def,
                      ht0, eq_self_iff_true, not_true, if_false, if_true, pyIter, hfm,
                      pySubscrNat, List.get?, pyDictGet_obj, hlfs, henv, hpv, hbl, htp,
                      hptv] at hha
                    exact Except.noConfusion hha
                | ok v =>
                    simp only [handle_alert, hav, py_bind_ok, py_pure_bind, py_pure_def,
                      ht0, eq_self_iff_true, not_true, if_false, if_true, pyIter, hfm,
                      pySubscrNat, List.get?, pyDictGet_obj, hlfs, henv, hpv, hbl, htp,
                      hptv, Except.ok.injEq] at hha
                    subst hha
                    exact ⟨_, _, _, _, rfl⟩
            | false =>
                cases hha : handle_alert env data with
                | error e =>
                    simp only [handle_alert, hav, py_bind_ok, py_pure_bind, py_pure_def,
                      ht0, eq_self_iff_true, not_true, if_false, if_true, pyIter, hfm,
                      pySubscrNat, List.get?, pyDictGet_obj, hlfs, henv, hpv, hbl, htp,
                      Bool.false_eq_true] at hha
                    exact Except.noConfusion hha
                | ok v =>
                    simp only [handle_alert, hav, py_bind_ok, py_pure_bind, py_pure_def,
                      ht0, eq_self_iff_true, not_true, if_false, if_true, pyIter, hfm,
                      pySubscrNat, List.get?, pyDictGet_obj, hlfs, henv, hpv, hbl, htp,
                      Bool.false_eq_true, Except.ok.injEq] at hha
                    subst hha
                    exact ⟨_, _, _, _, rfl⟩
        | error msg =>
            have hinsN : wfInstructions Json.null = true := rfl
            have hnul : pyTruthy Json.null = false := rfl
            obtain ⟨pv, hpv⟩ := processInstructions_ok env
              ((Json.lookup.fieldsGet lfs "pod").getD (Json.str "unknown"))
              Json.null ("⚠️ Ollama request failed: " ++ msg) hinsN
            obtain ⟨bl, hbl⟩ := compose_ok (Json.obj afs) rest
              Json.null ("⚠️ Ollama request failed: " ++ msg) pv.1 pv.2 env.nowShort
              (hwf _ (List.mem_cons_self _ _)) hinsN
            cases hha : handle_alert env data with
            | error e =>
                simp only [handle_alert, hav, py_bind_ok, py_pure_bind, py_pure_def,
                  ht0, eq_self_iff_true, not_true, if_false, if_true, pyIter, hfm,
                  pySubscrNat, List.get?, pyDictGet_obj, hlfs, henv, hpv, hbl, hnul,
                  Bool.false_eq_true] at hha
                exact Except.noConfusion hha
            | ok v =>
                simp only [handle_alert, hav, py_bind_ok, py_pure_bind, py_pure_def,
                  ht0, eq_self_iff_true, not_true, if_false, if_true, pyIter, hfm,
                  pySubscrNat, List.get?, pyDictGet_obj, hlfs, henv, hpv, hbl, hnul,
                  Bool.false_eq_true, Except.ok.injEq] at hha
                subst hha
                exact ⟨_, _, _, _, rfl⟩

def envW : HandlerEnv :=
  { ollamaResult := Except.error "down",
    ghState := ⟨[], [], [("app/failing-app.yaml", [podDoc])], "sha0", [], 0⟩,
    timestamp := "20250101",
    imageCheckFn := fun _ => (true, "ok"),
    nowShort := "now",
    currentManifest := none }

theorem C4_best_effort_response_witness :
    ∃ pod_name prUrl ptField analysisDone,
      handle_alert envW data4
        = Except.ok (Json.obj
            [("status", Json.str "ok"),
             ("pod_name", pod_name),
             ("analysis_completed", Json.bool analysisDone),
             ("pr_created", Json.bool (Option.isSome prUrl)),
             ("pr_url", match prUrl with | some u => Json.str u | none => Json.null),
             ("problem_type", ptField)], 200) :=
  (C4_best_effort_response envW data4
      (Json.arr [Json.obj [("labels", Json.obj [("pod", Json.str "web")])]])
      (Json.obj [("labels", Json.obj [("pod", Json.str "web")])]) [] rfl).2
    rfl (by intro x hx; rw [List.mem_singleton] at hx; subst hx; decide) (by decide)
